import Mathlib

/-!
Verification of the `AvatarPlayer` React component (avatar-humano repository).

The development shallowly embeds the component's core logic:

* the individual-mode frame loader (`loadFrames`, a bounded worker pool with a
  shared claim counter) as a nondeterministic state machine whose scheduler
  chooses which suspended worker resumes next;
* the zip-mode frame loader as a pure recursion over the manifest frame names;
* the `requestAnimationFrame` tick loop (`tick`) as a pure function of the
  clock configuration, the mutable refs it reads, and the current wall-clock
  time, with a driver `runClock` that folds it over a list of tick times;
* `drawFrame` as a pure function returning the draw effect, if any;
* the `useEffect` setup/cleanup lifecycle as a state machine whose events are
  either the completion of the next awaited promise or the unmount cleanup.

Numbers that are JavaScript `number`s (timestamps, fps) are modelled as `ℚ`;
frame indices, which the code manipulates as integers (including the value
`-1` produced by `length - 1` on an empty array), are modelled as `ℤ`.
-/

namespace AvatarPlayer

/-- Source line 67: `const MAX_CONCURRENT_REQUESTS = 8`. -/
def MAX_CONCURRENT_REQUESTS : Nat := 8

/-!
## Individual-mode loader (`loadFrames`, source lines 176-197)

Each worker runs
`while (index < queue.length) { const i = index++; const bmp = await fetch(queue[i])...; results[i] = bmp; }`.
The synchronous segments between `await`s are atomic.  A worker is therefore in
one of four phases: at the loop head (about to claim), awaiting the fetch of a
claimed index, finished (loop condition failed), or errored (its awaited fetch
or decode rejected, which rejects the worker's promise and hence the
`Promise.all`).  Resuming a worker whose fetch completed writes its result slot
and immediately claims the next index (or finishes) before suspending again,
exactly as the JavaScript control flow does.
-/

/-- Phase of one worker coroutine of the bounded pool. -/
inductive WorkerPhase where
  | atHead : WorkerPhase
  | awaiting : Nat → WorkerPhase
  | finished : WorkerPhase
  | errored : WorkerPhase
deriving DecidableEq

/-- State shared by all workers: the claim counter `index`, the worker phases,
the pre-sized result array `results`, and the log of issued fetches. -/
structure PoolState (α : Type) where
  nextIndex : Nat
  workers : List WorkerPhase
  results : List (Option α)
  fetched : List Nat
deriving DecidableEq

/-- The loop-head step of a worker: `while (index < queue.length) { const i = index++; ... }`.
If the shared counter is below the queue length the worker claims the next
index (issuing its fetch, which we log); otherwise the loop exits. -/
def claimOrFinish (N : Nat) (s : PoolState α) : PoolState α × WorkerPhase :=
  if s.nextIndex < N then
    ({ s with nextIndex := s.nextIndex + 1, fetched := s.fetched ++ [s.nextIndex] },
      .awaiting s.nextIndex)
  else
    (s, .finished)

/-- Resume worker `w`.  `out i` is the outcome of fetching and decoding the
queue entry `i` (`none` models a rejected fetch/decode).  Resuming an awaiting
worker whose fetch succeeded performs `results[i] = bmp` and runs the loop head
again; a failed fetch moves the worker to `errored`. -/
def resumeWorker (N : Nat) (out : Nat → Option α) (s : PoolState α) (w : Nat) : PoolState α :=
  match s.workers[w]? with
  | none => s
  | some .atHead =>
      let p := claimOrFinish N s
      { p.1 with workers := p.1.workers.set w p.2 }
  | some (.awaiting i) =>
      match out i with
      | none => { s with workers := s.workers.set w .errored }
      | some v =>
          let p := claimOrFinish N { s with results := s.results.set i (some v) }
          { p.1 with workers := p.1.workers.set w p.2 }
  | some .finished => s
  | some .errored => s

/-- Initial pool state for a queue of `N` urls:
`Math.min(MAX_CONCURRENT_REQUESTS, queue.length)` workers are spawned, the
result array is pre-sized to `N`, and no fetch has been issued yet. -/
def initPool (α : Type) (N : Nat) : PoolState α :=
  { nextIndex := 0,
    workers := List.replicate (min MAX_CONCURRENT_REQUESTS N) .atHead,
    results := List.replicate N none,
    fetched := [] }

/-- Run the pool under a scheduler: `sched` lists, in order, which worker
resumes at each step (the spawn of a worker is its first resumption). -/
def runPool (N : Nat) (out : Nat → Option α) (sched : List Nat) : PoolState α :=
  sched.foldl (resumeWorker N out) (initPool α N)

/-- The pool has terminated: every worker's promise has settled. -/
def PoolState.isDone (s : PoolState α) : Bool :=
  s.workers.all fun ph => ph == .finished || ph == .errored

/-- Result of `await Promise.all(...)` followed by `return results`: if any
worker rejected, the whole load rejects; otherwise the result array is
returned. -/
def PoolState.loadResult (s : PoolState α) : Except String (List (Option α)) :=
  if s.workers.any (· == .errored) then .error "frame fetch failed" else .ok s.results

/-- Number of fetches outstanding at this instant: the workers currently
suspended on an in-flight fetch. -/
def PoolState.outstanding (s : PoolState α) : Nat :=
  (s.workers.filter fun ph =>
    match ph with
    | .awaiting _ => true
    | _ => false).length

/-- The per-index outcome of individual mode: the queue is
`frames.map(fname => new URL(fname, base).href)` and each entry is fetched and
decoded (`createBitmap`).  `resolve` models URL resolution against the base,
`fetchDecode` the fetch-plus-decode of one absolute URL. -/
def frameOut (resolve : String → String) (fetchDecode : String → Option α)
    (frames : List String) (i : Nat) : Option α :=
  match (frames.map resolve)[i]? with
  | some url => fetchDecode url
  | none => none

/-- Invariant of every reachable pool state. -/
structure PoolInv (N : Nat) (out : Nat → Option α) (s : PoolState α) : Prop where
  next_le : s.nextIndex ≤ N
  fetched_eq : s.fetched = List.range s.nextIndex
  workers_len : s.workers.length = min MAX_CONCURRENT_REQUESTS N
  results_len : s.results.length = N
  finished_full : ∀ w : Nat, s.workers[w]? = some WorkerPhase.finished → s.nextIndex = N
  awaiting_lt : ∀ (w i : Nat), s.workers[w]? = some (WorkerPhase.awaiting i) → i < s.nextIndex
  filled : ∀ i, i < s.nextIndex →
    (∃ w : Nat, s.workers[w]? = some (WorkerPhase.awaiting i)) ∨
      (∃ w : Nat, s.workers[w]? = some WorkerPhase.errored) ∨
      s.results[i]? = some (out i)
  fail_tracked : ∀ i, i < s.nextIndex → out i = none →
    (∃ w : Nat, s.workers[w]? = some (WorkerPhase.awaiting i)) ∨
      (∃ w : Nat, s.workers[w]? = some WorkerPhase.errored)
  errored_some : ∀ w : Nat, s.workers[w]? = some WorkerPhase.errored → ∃ i, i < N ∧ out i = none

theorem poolInv_init (N : Nat) (out : Nat → Option α) : PoolInv N out (initPool α N) := by
  refine ⟨Nat.zero_le _, rfl, List.length_replicate .., List.length_replicate .., ?_, ?_, ?_, ?_, ?_⟩
  · intro w hw
    rcases List.getElem?_eq_some.mp hw with ⟨h, hval⟩
    simp [initPool, List.getElem_replicate] at hval
  · intro w i hw
    rcases List.getElem?_eq_some.mp hw with ⟨h, hval⟩
    simp [initPool, List.getElem_replicate] at hval
  · intro i hi
    exact absurd hi (Nat.not_lt_zero i)
  · intro i hi
    exact absurd hi (Nat.not_lt_zero i)
  · intro w hw
    rcases List.getElem?_eq_some.mp hw with ⟨h, hval⟩
    simp [initPool, List.getElem_replicate] at hval

theorem resumeWorker_none {s : PoolState α} {w : Nat} (N : Nat) (out : Nat → Option α)
    (hw : s.workers[w]? = none) : resumeWorker N out s w = s := by
  simp [resumeWorker, hw]

theorem resumeWorker_atHead {s : PoolState α} {w : Nat} (N : Nat) (out : Nat → Option α)
    (hw : s.workers[w]? = some WorkerPhase.atHead) :
    resumeWorker N out s w =
      { (claimOrFinish N s).1 with
        workers := (claimOrFinish N s).1.workers.set w (claimOrFinish N s).2 } := by
  simp [resumeWorker, hw]

theorem resumeWorker_awaiting_none {s : PoolState α} {w i : Nat} (N : Nat)
    (out : Nat → Option α) (hw : s.workers[w]? = some (WorkerPhase.awaiting i))
    (hout : out i = none) :
    resumeWorker N out s w = { s with workers := s.workers.set w .errored } := by
  simp [resumeWorker, hw, hout]

theorem resumeWorker_awaiting_some {s : PoolState α} {w i : Nat} {v : α} (N : Nat)
    (out : Nat → Option α) (hw : s.workers[w]? = some (WorkerPhase.awaiting i))
    (hout : out i = some v) :
    resumeWorker N out s w =
      { (claimOrFinish N { s with results := s.results.set i (some v) }).1 with
        workers := (claimOrFinish N { s with results := s.results.set i (some v) }).1.workers.set
          w (claimOrFinish N { s with results := s.results.set i (some v) }).2 } := by
  simp [resumeWorker, hw, hout]

theorem resumeWorker_finished {s : PoolState α} {w : Nat} (N : Nat) (out : Nat → Option α)
    (hw : s.workers[w]? = some WorkerPhase.finished) : resumeWorker N out s w = s := by
  simp [resumeWorker, hw]

theorem resumeWorker_errored {s : PoolState α} {w : Nat} (N : Nat) (out : Nat → Option α)
    (hw : s.workers[w]? = some WorkerPhase.errored) : resumeWorker N out s w = s := by
  simp [resumeWorker, hw]

theorem poolInv_step (N : Nat) (out : Nat → Option α) (s : PoolState α) (w : Nat)
    (h : PoolInv N out s) : PoolInv N out (resumeWorker N out s w) := by
  obtain ⟨hle, hf, hwl, hrl, hff, hal, hfill, hft, hes⟩ := h
  cases hw : s.workers[w]? with
  | none => rw [resumeWorker_none N out hw]; exact ⟨hle, hf, hwl, hrl, hff, hal, hfill, hft, hes⟩
  | some ph =>
    obtain ⟨hwlt, -⟩ := List.getElem?_eq_some.mp hw
    cases ph with
    | atHead =>
      rw [resumeWorker_atHead N out hw]
      by_cases hlt : s.nextIndex < N
      · simp only [claimOrFinish, if_pos hlt]
        refine ⟨hlt, ?_, ?_, hrl, ?_, ?_, ?_, ?_, ?_⟩
        · rw [hf]; exact (List.range_succ _).symm
        · rw [List.length_set]; exact hwl
        · intro w' hw'
          by_cases hww : w = w'
          · subst hww
            rw [List.getElem?_set_self hwlt] at hw'
            simp at hw'
          · rw [List.getElem?_set_ne hww] at hw'
            exact absurd (hff w' hw') (Nat.ne_of_lt hlt)
        · intro w' j hw'
          by_cases hww : w = w'
          · subst hww
            rw [List.getElem?_set_self hwlt] at hw'
            simp only [Option.some.injEq, WorkerPhase.awaiting.injEq] at hw'
            show j < s.nextIndex + 1
            omega
          · rw [List.getElem?_set_ne hww] at hw'
            exact Nat.lt_succ_of_lt (hal w' j hw')
        · intro j hj
          rcases Nat.lt_succ_iff_lt_or_eq.mp hj with hj' | rfl
          · rcases hfill j hj' with ⟨w₀, hw₀⟩ | ⟨w₀, hw₀⟩ | hres
            · have hww : w ≠ w₀ := by
                intro hcontra; rw [← hcontra, hw] at hw₀; simp at hw₀
              exact Or.inl ⟨w₀, by rw [List.getElem?_set_ne hww]; exact hw₀⟩
            · have hww : w ≠ w₀ := by
                intro hcontra; rw [← hcontra, hw] at hw₀; simp at hw₀
              exact Or.inr (Or.inl ⟨w₀, by rw [List.getElem?_set_ne hww]; exact hw₀⟩)
            · exact Or.inr (Or.inr hres)
          · exact Or.inl ⟨w, by rw [List.getElem?_set_self hwlt]⟩
        · intro j hj hjout
          rcases Nat.lt_succ_iff_lt_or_eq.mp hj with hj' | rfl
          · rcases hft j hj' hjout with ⟨w₀, hw₀⟩ | ⟨w₀, hw₀⟩
            · have hww : w ≠ w₀ := by
                intro hcontra; rw [← hcontra, hw] at hw₀; simp at hw₀
              exact Or.inl ⟨w₀, by rw [List.getElem?_set_ne hww]; exact hw₀⟩
            · have hww : w ≠ w₀ := by
                intro hcontra; rw [← hcontra, hw] at hw₀; simp at hw₀
              exact Or.inr ⟨w₀, by rw [List.getElem?_set_ne hww]; exact hw₀⟩
          · exact Or.inl ⟨w, by rw [List.getElem?_set_self hwlt]⟩
        · intro w' hw'
          by_cases hww : w = w'
          · subst hww
            rw [List.getElem?_set_self hwlt] at hw'
            simp at hw'
          · rw [List.getElem?_set_ne hww] at hw'
            exact hes w' hw'
      · simp only [claimOrFinish, if_neg hlt]
        have hN : s.nextIndex = N := Nat.le_antisymm hle (Nat.le_of_not_lt hlt)
        refine ⟨hle, hf, by rw [List.length_set]; exact hwl, hrl, ?_, ?_, ?_, ?_, ?_⟩
        · intro w' hw'
          by_cases hww : w = w'
          · exact hN
          · rw [List.getElem?_set_ne hww] at hw'
            exact hff w' hw'
        · intro w' j hw'
          by_cases hww : w = w'
          · subst hww
            rw [List.getElem?_set_self hwlt] at hw'
            simp at hw'
          · rw [List.getElem?_set_ne hww] at hw'
            exact hal w' j hw'
        · intro j hj
          rcases hfill j hj with ⟨w₀, hw₀⟩ | ⟨w₀, hw₀⟩ | hres
          · have hww : w ≠ w₀ := by
              intro hcontra; rw [← hcontra, hw] at hw₀; simp at hw₀
            exact Or.inl ⟨w₀, by rw [List.getElem?_set_ne hww]; exact hw₀⟩
          · have hww : w ≠ w₀ := by
              intro hcontra; rw [← hcontra, hw] at hw₀; simp at hw₀
            exact Or.inr (Or.inl ⟨w₀, by rw [List.getElem?_set_ne hww]; exact hw₀⟩)
          · exact Or.inr (Or.inr hres)
        · intro j hj hjout
          rcases hft j hj hjout with ⟨w₀, hw₀⟩ | ⟨w₀, hw₀⟩
          · have hww : w ≠ w₀ := by
              intro hcontra; rw [← hcontra, hw] at hw₀; simp at hw₀
            exact Or.inl ⟨w₀, by rw [List.getElem?_set_ne hww]; exact hw₀⟩
          · have hww : w ≠ w₀ := by
              intro hcontra; rw [← hcontra, hw] at hw₀; simp at hw₀
            exact Or.inr ⟨w₀, by rw [List.getElem?_set_ne hww]; exact hw₀⟩
        · intro w' hw'
          by_cases hww : w = w'
          · subst hww
            rw [List.getElem?_set_self hwlt] at hw'
            simp at hw'
          · rw [List.getElem?_set_ne hww] at hw'
            exact hes w' hw'
    | awaiting i =>
      have hin : i < s.nextIndex := hal w i hw
      have hiN : i < N := lt_of_lt_of_le hin hle
      cases hout : out i with
      | none =>
        rw [resumeWorker_awaiting_none N out hw hout]
        refine ⟨hle, hf, by rw [List.length_set]; exact hwl, hrl, ?_, ?_, ?_, ?_, ?_⟩
        · intro w' hw'
          by_cases hww : w = w'
          · subst hww
            rw [List.getElem?_set_self hwlt] at hw'
            simp at hw'
          · rw [List.getElem?_set_ne hww] at hw'
            exact hff w' hw'
        · intro w' j hw'
          by_cases hww : w = w'
          · subst hww
            rw [List.getElem?_set_self hwlt] at hw'
            simp at hw'
          · rw [List.getElem?_set_ne hww] at hw'
            exact hal w' j hw'
        · intro j hj
          exact Or.inr (Or.inl ⟨w, by rw [List.getElem?_set_self hwlt]⟩)
        · intro j hj hjout
          exact Or.inr ⟨w, by rw [List.getElem?_set_self hwlt]⟩
        · intro w' hw'
          by_cases hww : w = w'
          · exact ⟨i, hiN, hout⟩
          · rw [List.getElem?_set_ne hww] at hw'
            exact hes w' hw'
      | some v =>
        rw [resumeWorker_awaiting_some N out hw hout]
        have hires : i < s.results.length := by rw [hrl]; exact hiN
        by_cases hlt : s.nextIndex < N
        · simp only [claimOrFinish, if_pos hlt]
          refine ⟨hlt, ?_, ?_, ?_, ?_, ?_, ?_, ?_, ?_⟩
          · rw [hf]; exact (List.range_succ _).symm
          · rw [List.length_set]; exact hwl
          · rw [List.length_set]; exact hrl
          · intro w' hw'
            by_cases hww : w = w'
            · subst hww
              rw [List.getElem?_set_self hwlt] at hw'
              simp at hw'
            · rw [List.getElem?_set_ne hww] at hw'
              exact absurd (hff w' hw') (Nat.ne_of_lt hlt)
          · intro w' j hw'
            by_cases hww : w = w'
            · subst hww
              rw [List.getElem?_set_self hwlt] at hw'
              simp only [Option.some.injEq, WorkerPhase.awaiting.injEq] at hw'
              show j < s.nextIndex + 1
              omega
            · rw [List.getElem?_set_ne hww] at hw'
              exact Nat.lt_succ_of_lt (hal w' j hw')
          · intro j hj
            rcases Nat.lt_succ_iff_lt_or_eq.mp hj with hj' | rfl
            · rcases hfill j hj' with ⟨w₀, hw₀⟩ | ⟨w₀, hw₀⟩ | hres
              · by_cases hww : w = w₀
                · have hij : j = i := by
                    rw [← hww, hw] at hw₀
                    simp only [Option.some.injEq, WorkerPhase.awaiting.injEq] at hw₀
                    exact hw₀.symm
                  subst hij
                  refine Or.inr (Or.inr ?_)
                  rw [List.getElem?_set_self hires, hout]
                · exact Or.inl ⟨w₀, by rw [List.getElem?_set_ne hww]; exact hw₀⟩
              · have hww : w ≠ w₀ := by
                  intro hcontra; rw [← hcontra, hw] at hw₀; simp at hw₀
                exact Or.inr (Or.inl ⟨w₀, by rw [List.getElem?_set_ne hww]; exact hw₀⟩)
              · refine Or.inr (Or.inr ?_)
                by_cases hij : i = j
                · subst hij
                  rw [List.getElem?_set_self hires, hout]
                · rw [List.getElem?_set_ne hij]
                  exact hres
            · exact Or.inl ⟨w, by rw [List.getElem?_set_self hwlt]⟩
          · intro j hj hjout
            rcases Nat.lt_succ_iff_lt_or_eq.mp hj with hj' | rfl
            · rcases hft j hj' hjout with ⟨w₀, hw₀⟩ | ⟨w₀, hw₀⟩
              · by_cases hww : w = w₀
                · have hij : j = i := by
                    rw [← hww, hw] at hw₀
                    simp only [Option.some.injEq, WorkerPhase.awaiting.injEq] at hw₀
                    exact hw₀.symm
                  subst hij
                  rw [hjout] at hout
                  exact absurd hout (by simp)
                · exact Or.inl ⟨w₀, by rw [List.getElem?_set_ne hww]; exact hw₀⟩
              · have hww : w ≠ w₀ := by
                  intro hcontra; rw [← hcontra, hw] at hw₀; simp at hw₀
                exact Or.inr ⟨w₀, by rw [List.getElem?_set_ne hww]; exact hw₀⟩
            · exact Or.inl ⟨w, by rw [List.getElem?_set_self hwlt]⟩
          · intro w' hw'
            by_cases hww : w = w'
            · subst hww
              rw [List.getElem?_set_self hwlt] at hw'
              simp at hw'
            · rw [List.getElem?_set_ne hww] at hw'
              exact hes w' hw'
        · simp only [claimOrFinish, if_neg hlt]
          have hN : s.nextIndex = N := Nat.le_antisymm hle (Nat.le_of_not_lt hlt)
          refine ⟨hle, hf, by rw [List.length_set]; exact hwl,
            by rw [List.length_set]; exact hrl, ?_, ?_, ?_, ?_, ?_⟩
          · intro w' hw'
            by_cases hww : w = w'
            · exact hN
            · rw [List.getElem?_set_ne hww] at hw'
              exact hff w' hw'
          · intro w' j hw'
            by_cases hww : w = w'
            · subst hww
              rw [List.getElem?_set_self hwlt] at hw'
              simp at hw'
            · rw [List.getElem?_set_ne hww] at hw'
              exact hal w' j hw'
          · intro j hj
            rcases hfill j hj with ⟨w₀, hw₀⟩ | ⟨w₀, hw₀⟩ | hres
            · by_cases hww : w = w₀
              · have hij : j = i := by
                  rw [← hww, hw] at hw₀
                  simp only [Option.some.injEq, WorkerPhase.awaiting.injEq] at hw₀
                  exact hw₀.symm
                subst hij
                refine Or.inr (Or.inr ?_)
                rw [List.getElem?_set_self hires, hout]
              · exact Or.inl ⟨w₀, by rw [List.getElem?_set_ne hww]; exact hw₀⟩
            · have hww : w ≠ w₀ := by
                intro hcontra; rw [← hcontra, hw] at hw₀; simp at hw₀
              exact Or.inr (Or.inl ⟨w₀, by rw [List.getElem?_set_ne hww]; exact hw₀⟩)
            · refine Or.inr (Or.inr ?_)
              by_cases hij : i = j
              · subst hij
                rw [List.getElem?_set_self hires, hout]
              · rw [List.getElem?_set_ne hij]
                exact hres
          · intro j hj hjout
            rcases hft j hj hjout with ⟨w₀, hw₀⟩ | ⟨w₀, hw₀⟩
            · by_cases hww : w = w₀
              · have hij : j = i := by
                  rw [← hww, hw] at hw₀
                  simp only [Option.some.injEq, WorkerPhase.awaiting.injEq] at hw₀
                  exact hw₀.symm
                subst hij
                rw [hjout] at hout
                exact absurd hout (by simp)
              · exact Or.inl ⟨w₀, by rw [List.getElem?_set_ne hww]; exact hw₀⟩
            · have hww : w ≠ w₀ := by
                intro hcontra; rw [← hcontra, hw] at hw₀; simp at hw₀
              exact Or.inr ⟨w₀, by rw [List.getElem?_set_ne hww]; exact hw₀⟩
          · intro w' hw'
            by_cases hww : w = w'
            · subst hww
              rw [List.getElem?_set_self hwlt] at hw'
              simp at hw'
            · rw [List.getElem?_set_ne hww] at hw'
              exact hes w' hw'
    | finished =>
      rw [resumeWorker_finished N out hw]
      exact ⟨hle, hf, hwl, hrl, hff, hal, hfill, hft, hes⟩
    | errored =>
      rw [resumeWorker_errored N out hw]
      exact ⟨hle, hf, hwl, hrl, hff, hal, hfill, hft, hes⟩

theorem poolInv_run (N : Nat) (out : Nat → Option α) (sched : List Nat) :
    PoolInv N out (runPool N out sched) := by
  have step : ∀ (l : List Nat) (s : PoolState α), PoolInv N out s →
      PoolInv N out (l.foldl (resumeWorker N out) s) := by
    intro l
    induction l with
    | nil => intro s hs; exact hs
    | cons a l ih => intro s hs; exact ih _ (poolInv_step N out s a hs)
  exact step sched _ (poolInv_init N out)

theorem done_phase {s : PoolState α} (hdone : s.isDone = true) {w : Nat} {ph : WorkerPhase}
    (hw : s.workers[w]? = some ph) : ph = .finished ∨ ph = .errored := by
  have hmem : ph ∈ s.workers := List.getElem?_mem hw
  have := List.all_eq_true.mp hdone ph hmem
  simpa [Bool.or_eq_true, beq_iff_eq] using this

theorem pool_terminal_complete (N : Nat) (out : Nat → Option α) (hN : 0 < N) (sched : List Nat)
    (hdone : (runPool N out sched).isDone = true)
    (hok : ∀ i, i < N → (out i).isSome) :
    (runPool N out sched).fetched = List.range N ∧
    (runPool N out sched).loadResult = Except.ok (runPool N out sched).results ∧
    (runPool N out sched).results.length = N ∧
    ∀ i, i < N → (runPool N out sched).results[i]? = some (out i) := by
  set s := runPool N out sched with hs
  have hinv := poolInv_run N out sched
  have hnoerr : ∀ w : Nat, ¬ s.workers[w]? = some WorkerPhase.errored := by
    intro w hw
    obtain ⟨i, hiN, hi⟩ := hinv.errored_some w hw
    have hsome := hok i hiN
    rw [hi] at hsome
    simp at hsome
  have hlen : 0 < s.workers.length := by
    rw [hinv.workers_len]
    exact lt_min (by norm_num [MAX_CONCURRENT_REQUESTS]) hN
  have hph0 : s.workers[0]? = some (s.workers.get ⟨0, hlen⟩) := List.getElem?_eq_getElem hlen
  have hfin : s.workers.get ⟨0, hlen⟩ = WorkerPhase.finished := by
    rcases done_phase hdone hph0 with h | h
    · exact h
    · rw [h] at hph0
      exact absurd hph0 (hnoerr 0)
  rw [hfin] at hph0
  have hph := hph0
  have hNfull : s.nextIndex = N := hinv.finished_full 0 hph
  have hanyfalse : s.workers.any (· == WorkerPhase.errored) = false := by
    rw [Bool.eq_false_iff]
    intro hany
    obtain ⟨x, hxmem, hxbeq⟩ := List.any_eq_true.mp hany
    have hx : x = WorkerPhase.errored := by simpa [beq_iff_eq] using hxbeq
    obtain ⟨w, hw⟩ := List.mem_iff_getElem?.mp hxmem
    rw [hx] at hw
    exact hnoerr w hw
  refine ⟨by rw [hinv.fetched_eq, hNfull], ?_, hinv.results_len, ?_⟩
  · unfold PoolState.loadResult
    rw [hanyfalse]
    simp
  · intro i hi
    rcases hinv.filled i (by rw [hNfull]; exact hi) with ⟨w₀, hw₀⟩ | ⟨w₀, hw₀⟩ | hres
    · rcases done_phase hdone hw₀ with h | h <;> simp at h
    · exact absurd hw₀ (hnoerr w₀)
    · exact hres

theorem pool_terminal_failed (N : Nat) (out : Nat → Option α) (i : Nat) (hi : i < N)
    (hfail : out i = none) (sched : List Nat)
    (hdone : (runPool N out sched).isDone = true) :
    (runPool N out sched).loadResult = Except.error "frame fetch failed" := by
  set s := runPool N out sched with hs
  have hinv := poolInv_run N out sched
  have herr : ∃ w : Nat, s.workers[w]? = some WorkerPhase.errored := by
    by_contra hnone
    push_neg at hnone
    have hlen : 0 < s.workers.length := by
      rw [hinv.workers_len]
      exact lt_min (by norm_num [MAX_CONCURRENT_REQUESTS]) (Nat.zero_lt_of_lt hi)
    have hph0 : s.workers[0]? = some (s.workers.get ⟨0, hlen⟩) := List.getElem?_eq_getElem hlen
    have hfin : s.workers.get ⟨0, hlen⟩ = WorkerPhase.finished := by
      rcases done_phase hdone hph0 with h | h
      · exact h
      · rw [h] at hph0
        exact absurd hph0 (hnone 0)
    rw [hfin] at hph0
    have hNfull : s.nextIndex = N := hinv.finished_full 0 hph0
    rcases hinv.fail_tracked i (by rw [hNfull]; exact hi) hfail with ⟨w₀, hw₀⟩ | ⟨w₀, hw₀⟩
    · rcases done_phase hdone hw₀ with h | h <;> simp at h
    · exact hnone w₀ hw₀
  obtain ⟨w, hw⟩ := herr
  have hany : s.workers.any (· == WorkerPhase.errored) = true :=
    List.any_eq_true.mpr ⟨WorkerPhase.errored, List.getElem?_mem hw, by simp⟩
  unfold PoolState.loadResult
  rw [hany]
  simp

/-- C1: in individual (non-zip) mode, a terminated load over a non-empty frame
list of length `N` in which every fetch succeeds has issued exactly the fetches
for indices `0..N-1` (each exactly once), returns the result array, and slot
`i` of that array holds exactly the image decoded from the URL resolved from
`Manifest.frames[i]` — for every scheduler, i.e. regardless of the order in
which fetches complete: assembly is by index, not by arrival order. -/
theorem avatar_C1 (resolve : String → String) (fetchDecode : String → Option α)
    (frames : List String) (hne : frames ≠ [])
    (hok : ∀ i, i < frames.length → (frameOut resolve fetchDecode frames i).isSome)
    (sched : List Nat)
    (hdone : (runPool frames.length (frameOut resolve fetchDecode frames) sched).isDone = true) :
    (runPool frames.length (frameOut resolve fetchDecode frames) sched).fetched =
        List.range frames.length ∧
    (runPool frames.length (frameOut resolve fetchDecode frames) sched).loadResult =
        Except.ok (runPool frames.length (frameOut resolve fetchDecode frames) sched).results ∧
    (runPool frames.length (frameOut resolve fetchDecode frames) sched).results.length =
        frames.length ∧
    ∀ i, i < frames.length →
      (runPool frames.length (frameOut resolve fetchDecode frames) sched).results[i]? =
        some (frameOut resolve fetchDecode frames i) :=
  pool_terminal_complete frames.length (frameOut resolve fetchDecode frames)
    (List.length_pos.mpr hne) sched hdone hok

theorem avatar_C1_witness :
    ((["a.jpg", "b.jpg", "c.jpg"] : List String) ≠ [] ∧
      (∀ i, i < (["a.jpg", "b.jpg", "c.jpg"] : List String).length →
        (frameOut (fun u => String.append "cdn/" u) (fun u => some (String.append "img:" u))
          ["a.jpg", "b.jpg", "c.jpg"] i).isSome) ∧
      (runPool (["a.jpg", "b.jpg", "c.jpg"] : List String).length
        (frameOut (fun u => String.append "cdn/" u) (fun u => some (String.append "img:" u))
          ["a.jpg", "b.jpg", "c.jpg"]) [0, 1, 2, 2, 0, 1]).isDone = true) ∧
    ((runPool (["a.jpg", "b.jpg", "c.jpg"] : List String).length
        (frameOut (fun u => String.append "cdn/" u) (fun u => some (String.append "img:" u))
          ["a.jpg", "b.jpg", "c.jpg"]) [0, 1, 2, 2, 0, 1]).fetched =
        List.range (["a.jpg", "b.jpg", "c.jpg"] : List String).length ∧
      (runPool (["a.jpg", "b.jpg", "c.jpg"] : List String).length
        (frameOut (fun u => String.append "cdn/" u) (fun u => some (String.append "img:" u))
          ["a.jpg", "b.jpg", "c.jpg"]) [0, 1, 2, 2, 0, 1]).loadResult =
        Except.ok (runPool (["a.jpg", "b.jpg", "c.jpg"] : List String).length
          (frameOut (fun u => String.append "cdn/" u) (fun u => some (String.append "img:" u))
            ["a.jpg", "b.jpg", "c.jpg"]) [0, 1, 2, 2, 0, 1]).results ∧
      (runPool (["a.jpg", "b.jpg", "c.jpg"] : List String).length
        (frameOut (fun u => String.append "cdn/" u) (fun u => some (String.append "img:" u))
          ["a.jpg", "b.jpg", "c.jpg"]) [0, 1, 2, 2, 0, 1]).results.length =
        (["a.jpg", "b.jpg", "c.jpg"] : List String).length ∧
      ∀ i, i < (["a.jpg", "b.jpg", "c.jpg"] : List String).length →
        (runPool (["a.jpg", "b.jpg", "c.jpg"] : List String).length
          (frameOut (fun u => String.append "cdn/" u) (fun u => some (String.append "img:" u))
            ["a.jpg", "b.jpg", "c.jpg"]) [0, 1, 2, 2, 0, 1]).results[i]? =
          some (frameOut (fun u => String.append "cdn/" u)
            (fun u => some (String.append "img:" u)) ["a.jpg", "b.jpg", "c.jpg"] i)) :=
  ⟨⟨by decide, by decide, by decide⟩,
    avatar_C1 (fun u => String.append "cdn/" u) (fun u => some (String.append "img:" u))
      ["a.jpg", "b.jpg", "c.jpg"] (by decide) (by decide) [0, 1, 2, 2, 0, 1] (by decide)⟩

/-- C9: the pool never has more than `min(MAX_CONCURRENT_REQUESTS, N)` fetches
outstanding at any instant of any schedule, because only
`Math.min(MAX_CONCURRENT_REQUESTS, queue.length)` worker tasks exist at all. -/
theorem avatar_C9 (out : Nat → Option α) (N : Nat) (sched : List Nat) :
    (runPool N out sched).outstanding ≤ min MAX_CONCURRENT_REQUESTS N ∧
    (runPool N out sched).workers.length = min MAX_CONCURRENT_REQUESTS N := by
  have hinv := poolInv_run N out sched
  refine ⟨?_, hinv.workers_len⟩
  calc (runPool N out sched).outstanding ≤ (runPool N out sched).workers.length :=
        List.length_filter_le _ _
    _ = min MAX_CONCURRENT_REQUESTS N := hinv.workers_len

/-!
## Archive mode (`loadFrames`, source lines 159-174)

When the manifest has a `zip` entry the archive is fetched once, opened with
`JSZip.loadAsync`, and for each name in `Manifest.frames` (in manifest order)
the entry of that name is looked up (`jszip.file(name)`), extracted and
decoded; a missing entry throws `new Error(`Missing \x7bname\x7d inside ZIP`)`.
The archive is modelled as an association list of named entries in their
physical order; `zipFile` is the name lookup, `decode` the
`file.async("blob")` plus `createBitmap` step (`none` models a decode
rejection, which propagates as a generic rejection).
-/

/-- Lookup of a named entry in the opened archive, as `jszip.file(name)`. -/
def zipFile (entries : List (String × β)) (name : String) : Option β :=
  (entries.find? fun e => e.1 == name).map Prod.snd

/-- Archive-mode load: walk `Manifest.frames` in order, extracting and
decoding the entry of each declared name. -/
def loadFramesZip (decode : β → Option γ) (entries : List (String × β)) :
    List String → Except String (List γ)
  | [] => .ok []
  | name :: rest =>
    match zipFile entries name with
    | none => .error (String.append "Missing " (String.append name " inside ZIP"))
    | some blob =>
      match decode blob with
      | none => .error "decode failed"
      | some img =>
        match loadFramesZip decode entries rest with
        | .error e => .error e
        | .ok imgs => .ok (img :: imgs)

theorem zipFile_eq_of_perm {entries entries' : List (String × β)}
    (hperm : entries.Perm entries') (hnd : (entries.map Prod.fst).Nodup) (name : String) :
    zipFile entries name = zipFile entries' name := by
  unfold zipFile
  cases hfind : entries.find? fun e => e.1 == name with
  | none =>
    have hnone : ∀ e ∈ entries', ¬ (e.1 == name) = true := by
      intro e he
      exact List.find?_eq_none.mp hfind e (hperm.symm.mem_iff.mp he)
    rw [List.find?_eq_none.mpr hnone]
  | some e =>
    have hmem : e ∈ entries := List.mem_of_find?_eq_some hfind
    have hpe : (e.1 == name) = true := by simpa using List.find?_some hfind
    have hsome : ((entries'.find? fun x => x.1 == name)).isSome := by
      rw [List.find?_isSome]
      exact ⟨e, hperm.mem_iff.mp hmem, hpe⟩
    obtain ⟨e', hfind'⟩ := Option.isSome_iff_exists.mp hsome
    have hmem' : e' ∈ entries := hperm.symm.subset (List.mem_of_find?_eq_some hfind')
    have hpe' : (e'.1 == name) = true := by simpa using List.find?_some hfind'
    have hkey : e.1 = e'.1 := by
      rw [beq_iff_eq] at hpe hpe'
      rw [hpe, hpe']
    have : e = e' := List.inj_on_of_nodup_map hnd hmem hmem' hkey
    rw [hfind', ← this]

theorem loadFramesZip_eq_of_perm (decode : β → Option γ) {entries entries' : List (String × β)}
    (hperm : entries.Perm entries') (hnd : (entries.map Prod.fst).Nodup)
    (frames : List String) :
    loadFramesZip decode entries frames = loadFramesZip decode entries' frames := by
  induction frames with
  | nil => rfl
  | cons name rest ih =>
    unfold loadFramesZip
    rw [← zipFile_eq_of_perm hperm hnd name, ih]

theorem loadFramesZip_ok (decode : β → Option γ) (entries : List (String × β))
    (frames : List String)
    (hfound : ∀ name ∈ frames, ∃ b g, zipFile entries name = some b ∧ decode b = some g) :
    ∃ imgs, loadFramesZip decode entries frames = .ok imgs ∧
      imgs.length = frames.length ∧
      ∀ i, i < frames.length → imgs[i]? = (frames[i]?.bind (zipFile entries)).bind decode := by
  induction frames with
  | nil => exact ⟨[], rfl, rfl, fun i hi => absurd hi (Nat.not_lt_zero i)⟩
  | cons name rest ih =>
    obtain ⟨b, g, hb, hg⟩ := hfound name (List.mem_cons_self name rest)
    obtain ⟨imgs, hok, hlen, hidx⟩ := ih fun n hn => hfound n (List.mem_cons_of_mem name hn)
    refine ⟨g :: imgs, ?_, by simp [hlen], ?_⟩
    · simp only [loadFramesZip, hb, hg, hok]
    · intro i hi
      cases i with
      | zero => simp [hb, hg]
      | succ j =>
        have hj : j < rest.length := by simpa using hi
        simpa using hidx j hj

theorem loadFramesZip_missing (decode : β → Option γ) (entries : List (String × β))
    (frames : List String) (hdec : ∀ b, (decode b).isSome)
    (hmiss : ∃ name ∈ frames, zipFile entries name = none) :
    ∃ m ∈ frames, zipFile entries m = none ∧
      loadFramesZip decode entries frames =
        .error (String.append "Missing " (String.append m " inside ZIP")) := by
  induction frames with
  | nil =>
    obtain ⟨name, hn, -⟩ := hmiss
    exact absurd hn (List.not_mem_nil _)
  | cons name rest ih =>
    cases hb : zipFile entries name with
    | none =>
      refine ⟨name, List.mem_cons_self name rest, hb, ?_⟩
      simp only [loadFramesZip, hb]
    | some b =>
      have hmiss' : ∃ n ∈ rest, zipFile entries n = none := by
        obtain ⟨n, hn, hnone⟩ := hmiss
        rcases List.mem_cons.mp hn with rfl | hn'
        · rw [hnone] at hb; exact absurd hb (by simp)
        · exact ⟨n, hn', hnone⟩
      obtain ⟨m, hm, hmnone, herr⟩ := ih hmiss'
      obtain ⟨g, hg⟩ := Option.isSome_iff_exists.mp (hdec b)
      refine ⟨m, List.mem_cons_of_mem name hm, hmnone, ?_⟩
      simp only [loadFramesZip, hb, hg, herr]

/-- C8: archive mode yields the frames in `Manifest.frames` order — slot `i`
is the decoded entry named `frames[i]` — independently of the physical order
of the entries inside the archive, and fails with an error naming the missing
entry whenever some declared frame name is absent from the archive. -/
theorem avatar_C8 (decode : β → Option γ) (entries entries' : List (String × β))
    (frames : List String) (hperm : entries.Perm entries')
    (hnd : (entries.map Prod.fst).Nodup) :
    loadFramesZip decode entries frames = loadFramesZip decode entries' frames ∧
    ((∀ name ∈ frames, ∃ b g, zipFile entries name = some b ∧ decode b = some g) →
      ∃ imgs, loadFramesZip decode entries frames = .ok imgs ∧
        imgs.length = frames.length ∧
        ∀ i, i < frames.length → imgs[i]? = (frames[i]?.bind (zipFile entries)).bind decode) ∧
    ((∀ b, (decode b).isSome) → (∃ name ∈ frames, zipFile entries name = none) →
      ∃ m ∈ frames, zipFile entries m = none ∧
        loadFramesZip decode entries frames =
          .error (String.append "Missing " (String.append m " inside ZIP"))) :=
  ⟨loadFramesZip_eq_of_perm decode hperm hnd frames,
    loadFramesZip_ok decode entries frames,
    fun hdec hmiss => loadFramesZip_missing decode entries frames hdec hmiss⟩

theorem avatar_C8_witness :
    (([("b.jpg", 2), ("a.jpg", 1)] : List (String × Nat)).Perm [("a.jpg", 1), ("b.jpg", 2)] ∧
      (([("b.jpg", 2), ("a.jpg", 1)] : List (String × Nat)).map Prod.fst).Nodup ∧
      (∀ name ∈ (["a.jpg", "b.jpg"] : List String), ∃ b g,
        zipFile [("b.jpg", 2), ("a.jpg", 1)] name = some b ∧
          (fun n => some (n * 10)) b = some g)) ∧
    (loadFramesZip (fun n => some (n * 10)) [("b.jpg", 2), ("a.jpg", 1)] ["a.jpg", "b.jpg"] =
        loadFramesZip (fun n => some (n * 10)) [("a.jpg", 1), ("b.jpg", 2)] ["a.jpg", "b.jpg"] ∧
      loadFramesZip (fun n => some (n * 10)) [("b.jpg", 2), ("a.jpg", 1)] ["a.jpg", "b.jpg"] =
        .ok [10, 20]) := by
  refine ⟨⟨by decide, by decide, ?_⟩, ?_, by rfl⟩
  · intro name hname
    rcases List.mem_cons.mp hname with rfl | hname'
    · exact ⟨1, 10, by decide, by decide⟩
    · rcases List.mem_cons.mp hname' with rfl | h
      · exact ⟨2, 20, by decide, by decide⟩
      · exact absurd h (List.not_mem_nil _)
  · exact (avatar_C8 (fun n => some (n * 10)) [("b.jpg", 2), ("a.jpg", 1)]
      [("a.jpg", 1), ("b.jpg", 2)] ["a.jpg", "b.jpg"] (by decide) (by decide)).1

/-!
## Playback clock (`tick`, source lines 112-141) and `drawFrame` (lines 96-106)

One tick reads `manifestRef`, `framesRef.current.length`, `startTimeRef`,
`currentFrameRef`, the `loop` prop, the `fps` prop and the audio element, and
computes `frameIdx = Math.floor(elapsed * fps)` with
`elapsed = (performance.now() - startTimeRef.current) / 1000`.  Timestamps are
milliseconds (`ℚ`); indices are `ℤ` (so that `framesRef.current.length - 1`
on an empty store is the JavaScript value `-1`).  The single JS`%` in the loop
branch is applied with a nonnegative dividend; for `frameCount = 0` JavaScript
would produce `NaN` where `Int.emod` returns the dividend, but no property
below concerns `loop = true` with an empty store.
-/

/-- One decoded audio element, as read and written by `tick`. -/
structure AudioSt where
  ended : Bool
  currentTime : ℚ
  paused : Bool
deriving DecidableEq

/-- Immutable inputs of the tick loop: the `fps` prop, the manifest `fps`
field, and the `loop` prop. -/
structure ClockCfg where
  fpsProp : Option ℚ
  manifestFps : Option ℚ
  loop : Bool
deriving DecidableEq

/-- Mutable refs read and written by `tick`. -/
structure ClockState where
  manifestSet : Bool
  frameCount : Nat
  startTime : ℚ
  currentFrame : ℤ
  audio : Option AudioSt
deriving DecidableEq

/-- Observable effects of one tick: the `drawFrame` invocations it makes (in
order, with their argument), whether it scheduled the next tick, whether it
fired `onEnd`, and whether it restarted the audio element. -/
structure TickOut where
  invocations : List ℤ
  scheduledNext : Bool
  endFired : Bool
  audioRestarted : Bool
deriving DecidableEq

/-- JavaScript `x || y` on numbers: `0` (and `undefined`) fall through. -/
def jsOrQ (x : Option ℚ) (y : ℚ) : ℚ :=
  match x with
  | some v => if v = 0 then y else v
  | none => y

/-- Source line 116: `const fps = fpsProp || manifest.fps || 25`. -/
def effectiveFps (fpsProp manifestFps : Option ℚ) : ℚ :=
  jsOrQ fpsProp (jsOrQ manifestFps 25)

/-- Source line 118: `Math.floor(elapsed * fps)` with
`elapsed = (now - startTime) / 1000` seconds. -/
def tickIdx (cfg : ClockCfg) (startTime now : ℚ) : ℤ :=
  ⌊(now - startTime) / 1000 * effectiveFps cfg.fpsProp cfg.manifestFps⌋

/-- Source lines 123-126: `audio.currentTime = 0; audio.play()`. -/
def restartAudio (a : AudioSt) : AudioSt :=
  { a with currentTime := 0, paused := false, ended := false }

/-- Source lines 135-140: the common tail of a tick — draw if the index
changed, then schedule the next tick. -/
def tickCont (st : ClockState) (idx : ℤ) (restarted : Bool) : ClockState × TickOut :=
  if idx ≠ st.currentFrame then
    ({ st with currentFrame := idx },
      { invocations := [idx], scheduledNext := true, endFired := false,
        audioRestarted := restarted })
  else
    (st,
      { invocations := [], scheduledNext := true, endFired := false,
        audioRestarted := restarted })

/-- Source lines 112-141: one invocation of the `requestAnimationFrame`
callback at wall-clock time `now`. -/
def tick (cfg : ClockCfg) (st : ClockState) (now : ℚ) : ClockState × TickOut :=
  if st.manifestSet = false then
    (st,
      { invocations := [], scheduledNext := false, endFired := false,
        audioRestarted := false })
  else
    let frameIdx := tickIdx cfg st.startTime now
    if (st.frameCount : ℤ) ≤ frameIdx then
      if cfg.loop then
        let wrapped := frameIdx % (st.frameCount : ℤ)
        match st.audio with
        | some a =>
          if a.ended then tickCont { st with audio := some (restartAudio a) } wrapped true
          else tickCont st wrapped false
        | none => tickCont st wrapped false
      else
        (st,
          { invocations := [(st.frameCount : ℤ) - 1], scheduledNext := false,
            endFired := true, audioRestarted := false })
    else
      tickCont st frameIdx false

/-- Run the scheduling loop from state `st` over the given tick times; the
loop stops as soon as a tick does not schedule a successor. -/
def runClock (cfg : ClockCfg) : ClockState → List ℚ → ClockState × List TickOut
  | st, [] => (st, [])
  | st, t :: ts =>
    let p := tick cfg st t
    if p.2.scheduledNext then
      let q := runClock cfg p.1 ts
      (q.1, p.2 :: q.2)
    else (p.1, [p.2])

/-- All `drawFrame` invocations of a run, in order. -/
def runDraws (cfg : ClockCfg) (st : ClockState) (ts : List ℚ) : List ℤ :=
  ((runClock cfg st ts).2.map TickOut.invocations).flatten

/-- Whether the run reached the end-of-clip branch (`onEnd` fired). -/
def runEnded (cfg : ClockCfg) (st : ClockState) (ts : List ℚ) : Bool :=
  (runClock cfg st ts).2.any (·.endFired)

/-- The effect of drawing one frame on the canvas (source lines 96-106). -/
structure DrawOp (α : Type) where
  image : α
deriving DecidableEq

/-- Source lines 96-106: `drawFrame` looks up `framesRef.current[index]` and
the 2d context and returns without effect if either is missing; otherwise it
clears the canvas and draws the asset scaled to the canvas size. -/
def drawFrame (frames : List α) (hasContext : Bool) (index : ℤ) : Option (DrawOp α) :=
  if 0 ≤ index ∧ hasContext = true then
    match frames[index.toNat]? with
    | some img => some { image := img }
    | none => none
  else none

theorem tickCont_shape (st : ClockState) (idx : ℤ) (r : Bool) :
    (tickCont st idx r).2.scheduledNext = true ∧ (tickCont st idx r).2.endFired = false ∧
      (((tickCont st idx r).2.invocations = [] ∧
          (tickCont st idx r).1.currentFrame = st.currentFrame) ∨
        (∃ i, (tickCont st idx r).2.invocations = [i] ∧ i ≠ st.currentFrame ∧
          (tickCont st idx r).1.currentFrame = i)) := by
  unfold tickCont
  by_cases h : idx ≠ st.currentFrame
  · rw [if_pos h]
    exact ⟨rfl, rfl, Or.inr ⟨idx, rfl, h, rfl⟩⟩
  · rw [if_neg h]
    exact ⟨rfl, rfl, Or.inl ⟨rfl, rfl⟩⟩

theorem tickCont_fixed (st : ClockState) (idx : ℤ) (r : Bool) :
    (tickCont st idx r).1.frameCount = st.frameCount ∧
    (tickCont st idx r).1.startTime = st.startTime ∧
    (tickCont st idx r).1.manifestSet = st.manifestSet := by
  unfold tickCont
  by_cases h : idx ≠ st.currentFrame
  · rw [if_pos h]; exact ⟨rfl, rfl, rfl⟩
  · rw [if_neg h]; exact ⟨rfl, rfl, rfl⟩

theorem tick_eq_noManifest (cfg : ClockCfg) {st : ClockState} (now : ℚ)
    (hman : st.manifestSet = false) :
    tick cfg st now = (st,
      { invocations := [], scheduledNext := false, endFired := false,
        audioRestarted := false }) := by
  unfold tick
  rw [if_pos hman]

theorem tick_eq_end (cfg : ClockCfg) {st : ClockState} (now : ℚ)
    (hman : st.manifestSet = true) (hloop : cfg.loop = false)
    (hover : (st.frameCount : ℤ) ≤ tickIdx cfg st.startTime now) :
    tick cfg st now = (st,
      { invocations := [(st.frameCount : ℤ) - 1], scheduledNext := false,
        endFired := true, audioRestarted := false }) := by
  unfold tick
  rw [if_neg (by simp [hman]), if_pos hover, if_neg (by simp [hloop])]

theorem tick_eq_normal (cfg : ClockCfg) {st : ClockState} (now : ℚ)
    (hman : st.manifestSet = true)
    (hunder : tickIdx cfg st.startTime now < (st.frameCount : ℤ)) :
    tick cfg st now = tickCont st (tickIdx cfg st.startTime now) false := by
  unfold tick
  rw [if_neg (by simp [hman]), if_neg (not_le.mpr hunder)]

theorem tick_eq_loop_no_audio (cfg : ClockCfg) {st : ClockState} (now : ℚ)
    (hman : st.manifestSet = true) (hloop : cfg.loop = true)
    (hover : (st.frameCount : ℤ) ≤ tickIdx cfg st.startTime now)
    (haud : st.audio = none) :
    tick cfg st now =
      tickCont st (tickIdx cfg st.startTime now % (st.frameCount : ℤ)) false := by
  unfold tick
  rw [if_neg (by simp [hman]), if_pos hover, if_pos (by simp [hloop]), haud]

theorem tick_eq_loop_ended (cfg : ClockCfg) {st : ClockState} {a : AudioSt} (now : ℚ)
    (hman : st.manifestSet = true) (hloop : cfg.loop = true)
    (hover : (st.frameCount : ℤ) ≤ tickIdx cfg st.startTime now)
    (haud : st.audio = some a) (hae : a.ended = true) :
    tick cfg st now =
      tickCont { st with audio := some (restartAudio a) }
        (tickIdx cfg st.startTime now % (st.frameCount : ℤ)) true := by
  unfold tick
  rw [if_neg (by simp [hman]), if_pos hover, if_pos (by simp [hloop]), haud]
  simp only [hae, if_true]

theorem tick_eq_loop_not_ended (cfg : ClockCfg) {st : ClockState} {a : AudioSt} (now : ℚ)
    (hman : st.manifestSet = true) (hloop : cfg.loop = true)
    (hover : (st.frameCount : ℤ) ≤ tickIdx cfg st.startTime now)
    (haud : st.audio = some a) (hae : a.ended = false) :
    tick cfg st now =
      tickCont st (tickIdx cfg st.startTime now % (st.frameCount : ℤ)) false := by
  unfold tick
  rw [if_neg (by simp [hman]), if_pos hover, if_pos (by simp [hloop]), haud]
  simp only [hae, Bool.false_eq_true, if_false]

theorem tick_shape (cfg : ClockCfg) (st : ClockState) (now : ℚ) :
    ((tick cfg st now).2.scheduledNext = false ∧
      (((tick cfg st now).2.endFired = true ∧
          (tick cfg st now).2.invocations = [(st.frameCount : ℤ) - 1] ∧
          (tick cfg st now).1 = st) ∨
        ((tick cfg st now).2.endFired = false ∧ (tick cfg st now).2.invocations = [] ∧
          (tick cfg st now).1 = st))) ∨
    ((tick cfg st now).2.scheduledNext = true ∧ (tick cfg st now).2.endFired = false ∧
      (((tick cfg st now).2.invocations = [] ∧
          (tick cfg st now).1.currentFrame = st.currentFrame) ∨
        (∃ i, (tick cfg st now).2.invocations = [i] ∧ i ≠ st.currentFrame ∧
          (tick cfg st now).1.currentFrame = i))) := by
  by_cases hman : st.manifestSet = true
  · by_cases hover : (st.frameCount : ℤ) ≤ tickIdx cfg st.startTime now
    · by_cases hloop : cfg.loop = true
      · cases haud : st.audio with
        | none =>
          rw [tick_eq_loop_no_audio cfg now hman hloop hover haud]
          exact Or.inr (tickCont_shape st _ false)
        | some a =>
          by_cases hae : a.ended = true
          · rw [tick_eq_loop_ended cfg now hman hloop hover haud hae]
            exact Or.inr (tickCont_shape { st with audio := some (restartAudio a) } _ true)
          · rw [tick_eq_loop_not_ended cfg now hman hloop hover haud
              (Bool.eq_false_iff.mpr hae)]
            exact Or.inr (tickCont_shape st _ false)
      · rw [tick_eq_end cfg now hman (Bool.eq_false_iff.mpr hloop) hover]
        exact Or.inl ⟨rfl, Or.inl ⟨rfl, rfl, rfl⟩⟩
    · rw [tick_eq_normal cfg now hman (not_le.mp hover)]
      exact Or.inr (tickCont_shape st _ false)
  · rw [tick_eq_noManifest cfg now (Bool.eq_false_iff.mpr hman)]
    exact Or.inl ⟨rfl, Or.inr ⟨rfl, rfl, rfl⟩⟩

theorem tick_fixed (cfg : ClockCfg) (st : ClockState) (now : ℚ) :
    (tick cfg st now).1.frameCount = st.frameCount ∧
    (tick cfg st now).1.startTime = st.startTime ∧
    (tick cfg st now).1.manifestSet = st.manifestSet := by
  by_cases hman : st.manifestSet = true
  · by_cases hover : (st.frameCount : ℤ) ≤ tickIdx cfg st.startTime now
    · by_cases hloop : cfg.loop = true
      · cases haud : st.audio with
        | none =>
          rw [tick_eq_loop_no_audio cfg now hman hloop hover haud]
          exact tickCont_fixed st _ false
        | some a =>
          by_cases hae : a.ended = true
          · rw [tick_eq_loop_ended cfg now hman hloop hover haud hae]
            exact tickCont_fixed { st with audio := some (restartAudio a) } _ true
          · rw [tick_eq_loop_not_ended cfg now hman hloop hover haud
              (Bool.eq_false_iff.mpr hae)]
            exact tickCont_fixed st _ false
      · rw [tick_eq_end cfg now hman (Bool.eq_false_iff.mpr hloop) hover]
        exact ⟨rfl, rfl, rfl⟩
    · rw [tick_eq_normal cfg now hman (not_le.mp hover)]
      exact tickCont_fixed st _ false
  · rw [tick_eq_noManifest cfg now (Bool.eq_false_iff.mpr hman)]
    exact ⟨rfl, rfl, rfl⟩

theorem runClock_cons_sched {cfg : ClockCfg} {st : ClockState} {t : ℚ} {ts : List ℚ}
    (h : (tick cfg st t).2.scheduledNext = true) :
    runClock cfg st (t :: ts) =
      ((runClock cfg (tick cfg st t).1 ts).1,
        (tick cfg st t).2 :: (runClock cfg (tick cfg st t).1 ts).2) := by
  conv_lhs => rw [runClock]
  simp only [h, if_true]

theorem runClock_cons_stop {cfg : ClockCfg} {st : ClockState} {t : ℚ} {ts : List ℚ}
    (h : (tick cfg st t).2.scheduledNext = false) :
    runClock cfg st (t :: ts) = ((tick cfg st t).1, [(tick cfg st t).2]) := by
  conv_lhs => rw [runClock]
  simp only [h, Bool.false_eq_true, if_false]

theorem runDraws_cons_sched {cfg : ClockCfg} {st : ClockState} {t : ℚ} (ts : List ℚ)
    (h : (tick cfg st t).2.scheduledNext = true) :
    runDraws cfg st (t :: ts) =
      (tick cfg st t).2.invocations ++ runDraws cfg (tick cfg st t).1 ts := by
  unfold runDraws
  rw [runClock_cons_sched h]
  simp

theorem runDraws_cons_stop {cfg : ClockCfg} {st : ClockState} {t : ℚ} (ts : List ℚ)
    (h : (tick cfg st t).2.scheduledNext = false) :
    runDraws cfg st (t :: ts) = (tick cfg st t).2.invocations := by
  unfold runDraws
  rw [runClock_cons_stop h]
  simp

theorem runEnded_cons_sched {cfg : ClockCfg} {st : ClockState} {t : ℚ} (ts : List ℚ)
    (h : (tick cfg st t).2.scheduledNext = true) :
    runEnded cfg st (t :: ts) =
      ((tick cfg st t).2.endFired || runEnded cfg (tick cfg st t).1 ts) := by
  unfold runEnded
  rw [runClock_cons_sched h]
  simp

theorem runEnded_cons_stop {cfg : ClockCfg} {st : ClockState} {t : ℚ} (ts : List ℚ)
    (h : (tick cfg st t).2.scheduledNext = false) :
    runEnded cfg st (t :: ts) = (tick cfg st t).2.endFired := by
  unfold runEnded
  rw [runClock_cons_stop h]
  simp

theorem run_draws_decomp (cfg : ClockCfg) (ts : List ℚ) :
    ∀ st : ClockState,
      ∃ body : List ℤ,
        runDraws cfg st ts =
          body ++ (if runEnded cfg st ts then [(st.frameCount : ℤ) - 1] else []) ∧
        List.Chain' (· ≠ ·) body ∧
        (∀ d, body.head? = some d → d ≠ st.currentFrame) := by
  induction ts with
  | nil =>
    intro st
    exact ⟨[], by simp [runDraws, runEnded, runClock], List.chain'_nil, by simp⟩
  | cons t ts ih =>
    intro st
    rcases tick_shape cfg st t with ⟨hsched, hrest⟩ | ⟨hsched, hend, hcases⟩
    · rcases hrest with ⟨hend, hinv, -⟩ | ⟨hend, hinv, -⟩
      · refine ⟨[], ?_, List.chain'_nil, by simp⟩
        rw [runDraws_cons_stop ts hsched, runEnded_cons_stop ts hsched, hinv, hend]
        simp
      · refine ⟨[], ?_, List.chain'_nil, by simp⟩
        rw [runDraws_cons_stop ts hsched, runEnded_cons_stop ts hsched, hinv, hend]
        simp
    · obtain ⟨body, hdec, hchain, hhead⟩ := ih (tick cfg st t).1
      have hfc : (tick cfg st t).1.frameCount = st.frameCount := (tick_fixed cfg st t).1
      rw [hfc] at hdec
      have hrd := runDraws_cons_sched ts hsched
      have hre := runEnded_cons_sched ts hsched
      rw [hend, Bool.false_or] at hre
      rcases hcases with ⟨hinv, hcur⟩ | ⟨i, hinv, hne, hcur⟩
      · refine ⟨body, ?_, hchain, ?_⟩
        · rw [hrd, hinv, hre, List.nil_append]
          exact hdec
        · intro d hd
          rw [← hcur]
          exact hhead d hd
      · refine ⟨i :: body, ?_, ?_, ?_⟩
        · rw [hrd, hinv, hre, hdec]
          simp
        · rw [List.chain'_cons']
          refine ⟨?_, hchain⟩
          intro y hy
          have hne2 := hhead y hy
          rw [hcur] at hne2
          exact Ne.symm hne2
        · intro d hd
          simp only [List.head?_cons, Option.some.injEq] at hd
          rw [← hd]
          exact hne

/-- C3, amended: during a run of the scheduling loop the Renderer is never
invoked twice in a row with the same index, except that the final end-of-clip
clamp draw (`loop = false`, computed index past the end) unconditionally draws
index `frameCount - 1` and may therefore repeat the index just drawn.
Furthermore, a tick whose computed index `i = floor(elapsedSeconds * fps)` is
in range invokes the Renderer with `i` if and only if `i` differs from the
previously drawn index. -/
theorem avatar_C3 (cfg : ClockCfg) (st : ClockState) (ts : List ℚ) :
    List.Chain' (· ≠ ·) ((runDraws cfg st ts).dropLast) ∧
    (runEnded cfg st ts = false → List.Chain' (· ≠ ·) (runDraws cfg st ts)) ∧
    (∀ now, st.manifestSet = true →
      tickIdx cfg st.startTime now < (st.frameCount : ℤ) →
      ((tick cfg st now).2.invocations = [tickIdx cfg st.startTime now] ↔
        tickIdx cfg st.startTime now ≠ st.currentFrame)) := by
  obtain ⟨body, hdec, hchain, -⟩ := run_draws_decomp cfg ts st
  refine ⟨?_, ?_, ?_⟩
  · rw [hdec]
    cases hrE : runEnded cfg st ts
    · simp only [Bool.false_eq_true, if_false, List.append_nil]
      exact List.Chain'.init hchain
    · rw [if_pos rfl, List.dropLast_concat]
      exact hchain
  · intro hrE
    rw [hdec, hrE]
    simp only [if_neg (by simp : ¬ (false = true)), List.append_nil]
    exact hchain
  · intro now hman hunder
    rw [tick_eq_normal cfg now hman hunder]
    unfold tickCont
    by_cases h : tickIdx cfg st.startTime now ≠ st.currentFrame
    · rw [if_pos h]
      simp [h]
    · rw [if_neg h]
      simp [h]

theorem avatar_C3_witness :
    List.Chain'
      (· ≠ ·)
      ((runDraws { fpsProp := none, manifestFps := some 1000, loop := false }
        { manifestSet := true, frameCount := 3, startTime := 0, currentFrame := 0,
          audio := none } [1, 2, 3]).dropLast) ∧
    ((runEnded { fpsProp := none, manifestFps := some 1000, loop := false }
        { manifestSet := true, frameCount := 3, startTime := 0, currentFrame := 0,
          audio := none } [1, 2, 3] = false) ∨
      ((1 : ℚ) = 1)) ∧
    ((tick { fpsProp := none, manifestFps := some 1000, loop := false }
        { manifestSet := true, frameCount := 3, startTime := 0, currentFrame := 0,
          audio := none } 1).2.invocations =
          [tickIdx { fpsProp := none, manifestFps := some 1000, loop := false } 0 1] ↔
      tickIdx { fpsProp := none, manifestFps := some 1000, loop := false } 0 1 ≠ 0) := by
  obtain ⟨h1, -, h3⟩ := avatar_C3 { fpsProp := none, manifestFps := some 1000, loop := false }
    { manifestSet := true, frameCount := 3, startTime := 0, currentFrame := 0, audio := none }
    [1, 2, 3]
  refine ⟨h1, Or.inr rfl, ?_⟩
  have hunder : tickIdx { fpsProp := none, manifestFps := some 1000, loop := false } 0 1 <
      ((3 : Nat) : ℤ) := by
    unfold tickIdx effectiveFps jsOrQ
    norm_num
  exact h3 1 rfl hunder

theorem avatar_C3_cex :
    runDraws { fpsProp := none, manifestFps := some 1000, loop := false }
      { manifestSet := true, frameCount := 3, startTime := 0, currentFrame := 0, audio := none }
      [1, 2, 3] = [1, 2, 2] ∧
    ({ fpsProp := none, manifestFps := some 1000, loop := false } : ClockCfg).loop = false ∧
    ¬ List.Chain' (· ≠ ·) ([1, 2, 2] : List ℤ) := by
  refine ⟨?_, rfl, by simp [List.chain'_cons]⟩
  norm_num [runDraws, runClock, tick, tickCont, tickIdx, effectiveFps, jsOrQ]

theorem tickIdx_nonneg {cfg : ClockCfg} {startTime t : ℚ}
    (hfps : 0 ≤ effectiveFps cfg.fpsProp cfg.manifestFps) (h : startTime ≤ t) :
    0 ≤ tickIdx cfg startTime t := by
  unfold tickIdx
  refine Int.le_floor.mpr ?_
  push_cast
  exact mul_nonneg (div_nonneg (by linarith) (by norm_num)) hfps

theorem tickIdx_mono {cfg : ClockCfg} {startTime t u : ℚ}
    (hfps : 0 ≤ effectiveFps cfg.fpsProp cfg.manifestFps) (h : t ≤ u) :
    tickIdx cfg startTime t ≤ tickIdx cfg startTime u := by
  unfold tickIdx
  refine Int.floor_le_floor ?_
  refine mul_le_mul_of_nonneg_right ?_ hfps
  have h2 : t - startTime ≤ u - startTime := by linarith
  exact (div_le_div_iff_of_pos_right (by norm_num : (0:ℚ) < 1000)).mpr h2

theorem run_draws_mono (cfg : ClockCfg) (hloop : cfg.loop = false)
    (hfps : 0 ≤ effectiveFps cfg.fpsProp cfg.manifestFps) :
    ∀ (ts : List ℚ) (st : ClockState), st.manifestSet = true →
      List.Pairwise (· ≤ ·) ts →
      (∀ t ∈ ts, st.currentFrame ≤ tickIdx cfg st.startTime t) →
      ∃ body : List ℤ,
        runDraws cfg st ts =
          body ++ (if runEnded cfg st ts then [(st.frameCount : ℤ) - 1] else []) ∧
        List.Chain' (· < ·) body ∧ (∀ d ∈ body, st.currentFrame < d) := by
  intro ts
  induction ts with
  | nil =>
    intro st hman hsort hcur
    exact ⟨[], by simp [runDraws, runEnded, runClock], List.chain'_nil, by simp⟩
  | cons t ts ih =>
    intro st hman hsort hcur
    have hcur0 : st.currentFrame ≤ tickIdx cfg st.startTime t := hcur t (List.mem_cons_self t ts)
    by_cases hover : (st.frameCount : ℤ) ≤ tickIdx cfg st.startTime t
    · have heq := tick_eq_end cfg t hman hloop hover
      have hsched : (tick cfg st t).2.scheduledNext = false := by rw [heq]
      refine ⟨[], ?_, List.chain'_nil, by simp⟩
      rw [runDraws_cons_stop ts hsched, runEnded_cons_stop ts hsched, heq]
      simp
    · have hunder := not_le.mp hover
      have heq := tick_eq_normal cfg t hman hunder
      by_cases hdrw : tickIdx cfg st.startTime t ≠ st.currentFrame
      · have hlt : st.currentFrame < tickIdx cfg st.startTime t :=
          lt_of_le_of_ne hcur0 (Ne.symm hdrw)
        have heq2 : tick cfg st t =
            ({ st with currentFrame := tickIdx cfg st.startTime t },
              { invocations := [tickIdx cfg st.startTime t], scheduledNext := true,
                endFired := false, audioRestarted := false }) := by
          rw [heq]; unfold tickCont; rw [if_pos hdrw]
        have hsched : (tick cfg st t).2.scheduledNext = true := by rw [heq2]
        have hstep : (tick cfg st t).1 =
            { st with currentFrame := tickIdx cfg st.startTime t } := by rw [heq2]
        have hinv : (tick cfg st t).2.invocations = [tickIdx cfg st.startTime t] := by rw [heq2]
        have hend : (tick cfg st t).2.endFired = false := by rw [heq2]
        have hcur' : ∀ u ∈ ts,
            ({ st with currentFrame := tickIdx cfg st.startTime t } : ClockState).currentFrame ≤
              tickIdx cfg
                ({ st with currentFrame := tickIdx cfg st.startTime t } : ClockState).startTime
                u := by
          intro u hu
          have htu : t ≤ u := (List.pairwise_cons.mp hsort).1 u hu
          exact tickIdx_mono hfps htu
        obtain ⟨body, hdec, hchain, hball⟩ :=
          ih { st with currentFrame := tickIdx cfg st.startTime t } hman hsort.of_cons hcur'
        refine ⟨tickIdx cfg st.startTime t :: body, ?_, ?_, ?_⟩
        · rw [runDraws_cons_sched ts hsched, runEnded_cons_sched ts hsched, hstep, hinv, hend,
            Bool.false_or, hdec]
          simp
        · rw [List.chain'_cons']
          exact ⟨fun y hy => hball y (List.mem_of_mem_head? hy), hchain⟩
        · intro d hd
          rcases List.mem_cons.mp hd with rfl | hd'
          · exact hlt
          · exact lt_trans hlt (hball d hd')
      · push_neg at hdrw
        have heq2 : tick cfg st t =
            (st,
              { invocations := [], scheduledNext := true, endFired := false,
                audioRestarted := false }) := by
          rw [heq]; unfold tickCont; rw [if_neg (by simp [hdrw])]
        have hsched : (tick cfg st t).2.scheduledNext = true := by rw [heq2]
        have hstep : (tick cfg st t).1 = st := by rw [heq2]
        have hinv : (tick cfg st t).2.invocations = [] := by rw [heq2]
        have hend : (tick cfg st t).2.endFired = false := by rw [heq2]
        have hcur' : ∀ u ∈ ts, st.currentFrame ≤ tickIdx cfg st.startTime u := by
          intro u hu
          have htu : t ≤ u := (List.pairwise_cons.mp hsort).1 u hu
          exact le_trans hcur0 (tickIdx_mono hfps htu)
        obtain ⟨body, hdec, hchain, hball⟩ := ih st hman hsort.of_cons hcur'
        refine ⟨body, ?_, hchain, hball⟩
        rw [runDraws_cons_sched ts hsched, runEnded_cons_sched ts hsched, hstep, hinv, hend,
          Bool.false_or, List.nil_append, hdec]

theorem run_end_structure (cfg : ClockCfg) (ts : List ℚ) :
    ∀ st : ClockState,
      ((runClock cfg st ts).2.countP (·.endFired) =
        if runEnded cfg st ts then 1 else 0) ∧
      (runEnded cfg st ts = true →
        ∃ o, (runClock cfg st ts).2.getLast? = some o ∧ o.endFired = true ∧
          o.invocations = [(st.frameCount : ℤ) - 1] ∧ o.scheduledNext = false) := by
  induction ts with
  | nil =>
    intro st
    refine ⟨by simp [runClock, runEnded], ?_⟩
    intro h
    unfold runEnded runClock at h
    simp at h
  | cons t ts ih =>
    intro st
    rcases tick_shape cfg st t with ⟨hsched, hrest⟩ | ⟨hsched, hend, -⟩
    · rcases hrest with ⟨hendT, hinvT, -⟩ | ⟨hendT, hinvT, -⟩
      · rw [runEnded_cons_stop ts hsched, hendT]
        constructor
        · rw [runClock_cons_stop hsched]
          simp [List.countP_cons, hendT]
        · intro h
          refine ⟨(tick cfg st t).2, ?_, hendT, hinvT, hsched⟩
          rw [runClock_cons_stop hsched]
          simp
      · rw [runEnded_cons_stop ts hsched, hendT]
        constructor
        · rw [runClock_cons_stop hsched]
          simp [List.countP_cons, hendT]
        · intro h
          cases h
    · obtain ⟨hcount, hlast⟩ := ih (tick cfg st t).1
      have hfc : (tick cfg st t).1.frameCount = st.frameCount := (tick_fixed cfg st t).1
      rw [runEnded_cons_sched ts hsched, hend, Bool.false_or]
      constructor
      · rw [runClock_cons_sched hsched]
        simp only [List.countP_cons, hend]
        simp [hcount]
      · intro h
        obtain ⟨o, holast, hoend, hoinv, hosch⟩ := hlast h
        rw [hfc] at hoinv
        refine ⟨o, ?_, hoend, hoinv, hosch⟩
        rw [runClock_cons_sched hsched]
        have hne : (runClock cfg (tick cfg st t).1 ts).2 ≠ [] := by
          intro hnil
          unfold runEnded at h
          rw [hnil] at h
          simp at h
        cases hrest2 : (runClock cfg (tick cfg st t).1 ts).2 with
        | nil => exact absurd hrest2 hne
        | cons o2 os =>
          rw [hrest2] at holast
          rw [List.getLast?_cons_cons]
          exact holast

/-- C4, amended: with `loop = false`, a non-decreasing sequence of tick times
starting at or after the recorded start produces a draw trace that is a
strictly increasing list of positive indices followed, if the clip end was
reached, by one final clamp draw of index `frameCount - 1` — which may repeat
the index just drawn; when the end is reached, `onEnd` fires exactly once, in
the final tick, the clamp draw is that tick's only invocation, and no further
tick is scheduled (so no draws follow). -/
theorem avatar_C4 (cfg : ClockCfg) (st : ClockState) (ts : List ℚ)
    (hloop : cfg.loop = false) (hman : st.manifestSet = true)
    (hfps : 0 ≤ effectiveFps cfg.fpsProp cfg.manifestFps)
    (hsort : List.Pairwise (· ≤ ·) ts) (hstart : ∀ t ∈ ts, st.startTime ≤ t)
    (hcur : st.currentFrame = 0) :
    ∃ body : List ℤ,
      runDraws cfg st ts =
        body ++ (if runEnded cfg st ts then [(st.frameCount : ℤ) - 1] else []) ∧
      List.Chain' (· < ·) body ∧ (∀ d ∈ body, 0 < d) ∧
      ((runClock cfg st ts).2.countP (·.endFired) =
        if runEnded cfg st ts then 1 else 0) ∧
      (runEnded cfg st ts = true →
        ∃ o, (runClock cfg st ts).2.getLast? = some o ∧ o.endFired = true ∧
          o.invocations = [(st.frameCount : ℤ) - 1] ∧ o.scheduledNext = false) := by
  have hcur' : ∀ t ∈ ts, st.currentFrame ≤ tickIdx cfg st.startTime t := by
    intro t ht
    rw [hcur]
    exact tickIdx_nonneg hfps (hstart t ht)
  obtain ⟨body, hdec, hchain, hball⟩ := run_draws_mono cfg hloop hfps ts st hman hsort hcur'
  obtain ⟨hcount, hlast⟩ := run_end_structure cfg ts st
  exact ⟨body, hdec, hchain, fun d hd => hcur ▸ hball d hd, hcount, hlast⟩

theorem avatar_C4_cex :
    runDraws { fpsProp := none, manifestFps := some 500, loop := false }
      { manifestSet := true, frameCount := 3, startTime := 0, currentFrame := 0, audio := none }
      [2, 4, 6] = [1, 2, 2] ∧
    ¬ List.Chain' (· < ·) ([1, 2, 2] : List ℤ) := by
  constructor
  · norm_num [runDraws, runClock, tick, tickCont, tickIdx, effectiveFps, jsOrQ]
  · simp [List.chain'_cons]

theorem avatar_C4_witness :
    (({ fpsProp := none, manifestFps := some 1000, loop := false } : ClockCfg).loop = false ∧
      ({ manifestSet := true, frameCount := 2, startTime := 0, currentFrame := 0,
          audio := none } : ClockState).manifestSet = true ∧
      0 ≤ effectiveFps (none : Option ℚ) (some 1000) ∧
      List.Pairwise (· ≤ ·) ([1, 3] : List ℚ) ∧
      (∀ t ∈ ([1, 3] : List ℚ), (0 : ℚ) ≤ t)) ∧
    (∃ body : List ℤ,
      runDraws { fpsProp := none, manifestFps := some 1000, loop := false }
        { manifestSet := true, frameCount := 2, startTime := 0, currentFrame := 0,
          audio := none } [1, 3] =
        body ++ (if runEnded { fpsProp := none, manifestFps := some 1000, loop := false }
          { manifestSet := true, frameCount := 2, startTime := 0, currentFrame := 0,
            audio := none } [1, 3] then [((2 : Nat) : ℤ) - 1] else []) ∧
      List.Chain' (· < ·) body ∧ (∀ d ∈ body, 0 < d) ∧
      ((runClock { fpsProp := none, manifestFps := some 1000, loop := false }
        { manifestSet := true, frameCount := 2, startTime := 0, currentFrame := 0,
          audio := none } [1, 3]).2.countP (·.endFired) =
        if runEnded { fpsProp := none, manifestFps := some 1000, loop := false }
          { manifestSet := true, frameCount := 2, startTime := 0, currentFrame := 0,
            audio := none } [1, 3] then 1 else 0) ∧
      (runEnded { fpsProp := none, manifestFps := some 1000, loop := false }
        { manifestSet := true, frameCount := 2, startTime := 0, currentFrame := 0,
          audio := none } [1, 3] = true →
        ∃ o, (runClock { fpsProp := none, manifestFps := some 1000, loop := false }
          { manifestSet := true, frameCount := 2, startTime := 0, currentFrame := 0,
            audio := none } [1, 3]).2.getLast? = some o ∧ o.endFired = true ∧
          o.invocations = [((2 : Nat) : ℤ) - 1] ∧ o.scheduledNext = false)) := by
  refine ⟨⟨rfl, rfl, ?_, ?_, ?_⟩, ?_⟩
  · norm_num [effectiveFps, jsOrQ]
  · norm_num [List.pairwise_cons]
  · intro t ht
    rcases List.mem_cons.mp ht with rfl | ht'
    · norm_num
    · rcases List.mem_cons.mp ht' with rfl | h
      · norm_num
      · exact absurd h (List.not_mem_nil _)
  · refine avatar_C4 { fpsProp := none, manifestFps := some 1000, loop := false }
      { manifestSet := true, frameCount := 2, startTime := 0, currentFrame := 0, audio := none }
      [1, 3] rfl rfl ?_ ?_ ?_ rfl
    · norm_num [effectiveFps, jsOrQ]
    · norm_num [List.pairwise_cons]
    · intro t ht
      rcases List.mem_cons.mp ht with rfl | ht'
      · norm_num
      · rcases List.mem_cons.mp ht' with rfl | h
        · norm_num
        · exact absurd h (List.not_mem_nil _)

theorem effectiveFps_pos_chain (p m : Option ℚ) (hp : ∀ v ∈ p, 0 < v)
    (hm : ∀ v ∈ m, 0 < v) : effectiveFps p m = p.getD (m.getD 25) := by
  unfold effectiveFps jsOrQ
  cases p with
  | some v =>
    have hv : v ≠ 0 := ne_of_gt (hp v rfl)
    simp [hv]
  | none =>
    cases m with
    | some w =>
      have hw : w ≠ 0 := ne_of_gt (hm w rfl)
      simp [hw]
    | none => rfl

theorem tickCont_parts (st : ClockState) (idx : ℤ) (r : Bool) :
    (tickCont st idx r).2.invocations = (if idx ≠ st.currentFrame then [idx] else []) ∧
    (tickCont st idx r).1.currentFrame =
      (if idx ≠ st.currentFrame then idx else st.currentFrame) ∧
    (tickCont st idx r).1.audio = st.audio ∧
    (tickCont st idx r).2.audioRestarted = r := by
  unfold tickCont
  by_cases h : idx ≠ st.currentFrame
  · simp [h]
  · simp [h]

/-- C2: the target frame index of every tick is
`floor(elapsedSeconds * fps)` where `elapsedSeconds` is the wall-clock time
since the recorded start timestamp and `fps` is the prop override, else the
manifest fps, else `25` (all assumed positive, as the data model requires);
when the index reaches or passes `frameCount` and `loop` is true, the drawn
index is wrapped modulo `frameCount`, and an audio track that has ended is
restarted from position zero and unpaused. -/
theorem avatar_C2 (cfg : ClockCfg) (st : ClockState) (now : ℚ)
    (hman : st.manifestSet = true) (hcount : 0 < st.frameCount) (hloop : cfg.loop = true)
    (hp : ∀ v ∈ cfg.fpsProp, 0 < v) (hm : ∀ v ∈ cfg.manifestFps, 0 < v) :
    effectiveFps cfg.fpsProp cfg.manifestFps = cfg.fpsProp.getD (cfg.manifestFps.getD 25) ∧
    tickIdx cfg st.startTime now =
      ⌊(now - st.startTime) / 1000 * cfg.fpsProp.getD (cfg.manifestFps.getD 25)⌋ ∧
    ((st.frameCount : ℤ) ≤ tickIdx cfg st.startTime now →
      (tick cfg st now).2.invocations =
        (if tickIdx cfg st.startTime now % (st.frameCount : ℤ) ≠ st.currentFrame
          then [tickIdx cfg st.startTime now % (st.frameCount : ℤ)] else []) ∧
      (tick cfg st now).1.currentFrame =
        (if tickIdx cfg st.startTime now % (st.frameCount : ℤ) ≠ st.currentFrame
          then tickIdx cfg st.startTime now % (st.frameCount : ℤ) else st.currentFrame) ∧
      0 ≤ tickIdx cfg st.startTime now % (st.frameCount : ℤ) ∧
      tickIdx cfg st.startTime now % (st.frameCount : ℤ) < (st.frameCount : ℤ) ∧
      (∀ a, st.audio = some a → a.ended = true →
        (tick cfg st now).1.audio = some (restartAudio a) ∧
        (tick cfg st now).2.audioRestarted = true ∧
        (restartAudio a).currentTime = 0 ∧ (restartAudio a).paused = false) ∧
      (∀ a, st.audio = some a → a.ended = false →
        (tick cfg st now).1.audio = st.audio ∧
        (tick cfg st now).2.audioRestarted = false)) ∧
    (tickIdx cfg st.startTime now < (st.frameCount : ℤ) →
      (tick cfg st now).2.invocations =
        (if tickIdx cfg st.startTime now ≠ st.currentFrame
          then [tickIdx cfg st.startTime now] else [])) := by
  have hfe := effectiveFps_pos_chain cfg.fpsProp cfg.manifestFps hp hm
  have hcz : (st.frameCount : ℤ) ≠ 0 := by exact_mod_cast Nat.pos_iff_ne_zero.mp hcount
  have hcpos : (0 : ℤ) < (st.frameCount : ℤ) := by exact_mod_cast hcount
  refine ⟨hfe, by rw [tickIdx, hfe], ?_, ?_⟩
  · intro hover
    have hmod0 : 0 ≤ tickIdx cfg st.startTime now % (st.frameCount : ℤ) :=
      Int.emod_nonneg _ hcz
    have hmodlt : tickIdx cfg st.startTime now % (st.frameCount : ℤ) < (st.frameCount : ℤ) :=
      Int.emod_lt_of_pos _ hcpos
    cases haud : st.audio with
    | none =>
      rw [tick_eq_loop_no_audio cfg now hman hloop hover haud]
      obtain ⟨h1, h2, h3, h4⟩ := tickCont_parts st _ false
      refine ⟨h1, h2, hmod0, hmodlt, ?_, ?_⟩
      · intro a ha hae
        exact absurd ha (by simp)
      · intro a ha hae
        exact absurd ha (by simp)
    | some a =>
      by_cases hae : a.ended = true
      · rw [tick_eq_loop_ended cfg now hman hloop hover haud hae]
        obtain ⟨h1, h2, h3, h4⟩ :=
          tickCont_parts { st with audio := some (restartAudio a) } _ true
        refine ⟨h1, h2, hmod0, hmodlt, ?_, ?_⟩
        · intro a2 ha2 hae2
          cases ha2
          exact ⟨h3, h4, rfl, rfl⟩
        · intro a2 ha2 hae2
          cases ha2
          rw [hae] at hae2
          cases hae2
      · rw [tick_eq_loop_not_ended cfg now hman hloop hover haud (Bool.eq_false_iff.mpr hae)]
        obtain ⟨h1, h2, h3, h4⟩ := tickCont_parts st _ false
        refine ⟨h1, h2, hmod0, hmodlt, ?_, ?_⟩
        · intro a2 ha2 hae2
          cases ha2
          exact absurd hae2 hae
        · intro a2 ha2 hae2
          cases ha2
          exact ⟨h3.trans haud, h4⟩
  · intro hunder
    rw [tick_eq_normal cfg now hman hunder]
    exact (tickCont_parts st _ false).1

theorem avatar_C2_witness :
    (({ manifestSet := true, frameCount := 3, startTime := 0, currentFrame := 2,
        audio := some { ended := true, currentTime := 7, paused := false } } :
          ClockState).manifestSet = true ∧
      (0 : Nat) < 3 ∧
      ({ fpsProp := none, manifestFps := some 10, loop := true } : ClockCfg).loop = true ∧
      (3 : ℤ) ≤ tickIdx { fpsProp := none, manifestFps := some 10, loop := true } 0 350) ∧
    ((tick { fpsProp := none, manifestFps := some 10, loop := true }
        { manifestSet := true, frameCount := 3, startTime := 0, currentFrame := 2,
          audio := some { ended := true, currentTime := 7, paused := false } }
        350).2.invocations = [0] ∧
      (tick { fpsProp := none, manifestFps := some 10, loop := true }
        { manifestSet := true, frameCount := 3, startTime := 0, currentFrame := 2,
          audio := some { ended := true, currentTime := 7, paused := false } }
        350).1.currentFrame = 0 ∧
      (tick { fpsProp := none, manifestFps := some 10, loop := true }
        { manifestSet := true, frameCount := 3, startTime := 0, currentFrame := 2,
          audio := some { ended := true, currentTime := 7, paused := false } }
        350).2.audioRestarted = true ∧
      (tick { fpsProp := none, manifestFps := some 10, loop := true }
        { manifestSet := true, frameCount := 3, startTime := 0, currentFrame := 2,
          audio := some { ended := true, currentTime := 7, paused := false } }
        350).1.audio = some { ended := false, currentTime := 0, paused := false }) := by
  have hidx : tickIdx { fpsProp := none, manifestFps := some 10, loop := true } 0 350 = 3 := by
    unfold tickIdx effectiveFps jsOrQ
    norm_num
  have hover : (3 : ℤ) ≤
      tickIdx { fpsProp := none, manifestFps := some 10, loop := true } 0 350 := by
    rw [hidx]
  obtain ⟨-, -, hbig, -⟩ := avatar_C2
    { fpsProp := none, manifestFps := some 10, loop := true }
    { manifestSet := true, frameCount := 3, startTime := 0, currentFrame := 2,
      audio := some { ended := true, currentTime := 7, paused := false } }
    350 rfl (by norm_num) rfl
    (fun v hv => by cases hv) (fun v hv => by cases hv; norm_num)
  obtain ⟨h1, h2, -, -, h5, -⟩ := hbig hover
  rw [hidx] at h1 h2
  norm_num at h1 h2
  obtain ⟨ha1, ha2, -, -⟩ := h5 { ended := true, currentTime := 7, paused := false } rfl rfl
  exact ⟨⟨rfl, by norm_num, rfl, hover⟩, h1, h2, ha2, ha1⟩

/-- C10: with an empty frame store and `loop = false`, the first scheduled tick
calls `drawFrame` with index `frameCount - 1 = -1`, which draws nothing (as
`drawFrame` is a no-op whenever the index has no asset or the canvas context is
unavailable), fires `onEnd` exactly once (the run produces exactly this one
tick output), and schedules no further tick. -/
theorem avatar_C10 {α : Type} (cfg : ClockCfg) (st : ClockState) (t : ℚ) (ts : List ℚ)
    (hasCtx : Bool) (hcount : st.frameCount = 0) (hloop : cfg.loop = false)
    (hman : st.manifestSet = true)
    (hfps : 0 ≤ effectiveFps cfg.fpsProp cfg.manifestFps) (hstart : st.startTime ≤ t) :
    runClock cfg st (t :: ts) =
      (st,
        [{ invocations := [(-1 : ℤ)], scheduledNext := false, endFired := true,
            audioRestarted := false }]) ∧
    (∀ frames : List α, drawFrame frames hasCtx (-1) = none) ∧
    (∀ (frames : List α) (idx : ℤ), drawFrame frames false idx = none) ∧
    (∀ (frames : List α) (b : Bool) (idx : ℤ), 0 ≤ idx → frames[idx.toNat]? = none →
      drawFrame frames b idx = none) := by
  have hover : (st.frameCount : ℤ) ≤ tickIdx cfg st.startTime t := by
    rw [hcount]
    exact_mod_cast tickIdx_nonneg hfps hstart
  have heq := tick_eq_end cfg t hman hloop hover
  have hsched : (tick cfg st t).2.scheduledNext = false := by rw [heq]
  refine ⟨?_, ?_, ?_, ?_⟩
  · rw [runClock_cons_stop hsched, heq]
    simp [hcount]
  · intro frames
    unfold drawFrame
    rw [if_neg]
    intro hcond
    exact absurd hcond.1 (by norm_num)
  · intro frames idx
    unfold drawFrame
    rw [if_neg]
    intro hcond
    exact Bool.false_ne_true hcond.2
  · intro frames b idx h0 hnone
    unfold drawFrame
    by_cases hb : 0 ≤ idx ∧ b = true
    · rw [if_pos hb, hnone]
    · rw [if_neg hb]

theorem avatar_C10_witness :
    (({ manifestSet := true, frameCount := 0, startTime := 0, currentFrame := 0,
        audio := none } : ClockState).frameCount = 0 ∧
      ({ fpsProp := none, manifestFps := some 25, loop := false } : ClockCfg).loop = false ∧
      (0 : ℚ) ≤ 100) ∧
    (runClock { fpsProp := none, manifestFps := some 25, loop := false }
      { manifestSet := true, frameCount := 0, startTime := 0, currentFrame := 0,
        audio := none } [100] =
      ({ manifestSet := true, frameCount := 0, startTime := 0, currentFrame := 0,
          audio := none },
        [{ invocations := [(-1 : ℤ)], scheduledNext := false, endFired := true,
            audioRestarted := false }]) ∧
      (∀ frames : List Nat, drawFrame frames true (-1) = none)) := by
  obtain ⟨hrun, hdraw, -, -⟩ := @avatar_C10 Nat
    { fpsProp := none, manifestFps := some 25, loop := false }
    { manifestSet := true, frameCount := 0, startTime := 0, currentFrame := 0, audio := none }
    100 [] true rfl rfl rfl (by norm_num [effectiveFps, jsOrQ]) (by norm_num)
  exact ⟨⟨rfl, rfl, by norm_num⟩, hrun, hdraw⟩

/-!
## Setup and cleanup lifecycle (`useEffect`, source lines 208-290)

The `setup()` async function is a sequence of awaited stages: manifest fetch,
`loadFrames`, audio `canplaythrough`, `audio.play()`.  Between the stages the
code runs synchronous segments which we make atomic; the `isMounted` liveness
flag is read exactly where the code reads it.  The cleanup closure (lines
275-289) cancels the pending animation frame, pauses the audio element,
closes every frame asset exposing a `close` capability, and clears the
store.  Events of a session run are either `resume` (the next awaited promise
settles) or `unmount` (the cleanup closure runs, setting `isMounted = false`).
The stage outcomes are parameters: `mOk` (manifest fetch and parse), `fOut`
(the `loadFrames` promise), `pOk` (the `play()` promise).
-/

/-- A decoded frame asset; `closable` records whether it exposes `close`
(an `ImageBitmap`) or not (a fallback `HTMLImageElement`). -/
structure FrameA where
  id : Nat
  closable : Bool
deriving DecidableEq

/-- The audio element as the lifecycle sees it. -/
structure AudioH where
  playing : Bool
deriving DecidableEq

/-- Where the suspended `setup()` coroutine currently is. -/
inductive Phase where
  | awaitingManifest : Phase
  | awaitingFrames : Phase
  | awaitingAudioReady : Phase
  | awaitingPlay : Phase
  | completed : Phase
  | bailedOut : Phase
  | failed : Phase
deriving DecidableEq

/-- Events driving one session: the settlement of the next awaited promise,
or the host-initiated unmount cleanup. -/
inductive SEvent where
  | resume : SEvent
  | unmount : SEvent
deriving DecidableEq

/-- The refs and observable outputs of one session. -/
structure Sess where
  phase : Phase
  mounted : Bool
  manifestSet : Bool
  frames : List FrameA
  audio : Option AudioH
  rafPending : Bool
  readyFired : Bool
  errorFired : Bool
  closeLog : List FrameA
deriving DecidableEq

/-- The cleanup closure (source lines 275-289): set `isMounted = false`,
cancel the pending scheduled tick if one exists, pause the audio element if
one exists, close every closable frame asset, clear the frame store. -/
def cleanup (s : Sess) : Sess :=
  { s with
    mounted := false,
    rafPending := false,
    audio := s.audio.map (fun a => { a with playing := false }),
    closeLog := s.closeLog ++ s.frames.filter (·.closable),
    frames := [] }

/-- One lifecycle step.  Each `resume` branch is the synchronous segment the
code runs when the corresponding `await` settles; note that on frames arrival
the store assignment `framesRef.current = await loadFrames(manifest)` happens
before the `isMounted` check, and that after `canplaythrough` and `play()`
there is no `isMounted` check at all. -/
def setupStep (mOk : Bool) (fOut : Except Unit (List FrameA)) (pOk : Bool)
    (s : Sess) : SEvent → Sess
  | .unmount => cleanup s
  | .resume =>
    match s.phase with
    | .awaitingManifest =>
      if mOk = false then
        { s with phase := .failed, errorFired := s.errorFired || s.mounted }
      else if s.mounted = false then { s with phase := .bailedOut }
      else { s with manifestSet := true, phase := .awaitingFrames }
    | .awaitingFrames =>
      match fOut with
      | .error _ => { s with phase := .failed, errorFired := s.errorFired || s.mounted }
      | .ok l =>
        if s.mounted = false then { s with frames := l, phase := .bailedOut }
        else
          { s with
            frames := l,
            audio := some { playing := false },
            phase := .awaitingAudioReady }
    | .awaitingAudioReady => { s with phase := .awaitingPlay }
    | .awaitingPlay =>
      if pOk then
        { s with
          audio := s.audio.map (fun a => { a with playing := true }),
          rafPending := true,
          readyFired := true,
          phase := .completed }
      else { s with phase := .failed, errorFired := s.errorFired || s.mounted }
    | .completed => s
    | .bailedOut => s
    | .failed => s

/-- Session state when the effect first runs: `setup()` has been called and is
awaiting the manifest fetch. -/
def initSess : Sess :=
  { phase := .awaitingManifest, mounted := true, manifestSet := false, frames := [],
    audio := none, rafPending := false, readyFired := false, errorFired := false,
    closeLog := [] }

/-- Run a session from mount through the given events. -/
def runSetup (mOk : Bool) (fOut : Except Unit (List FrameA)) (pOk : Bool)
    (evs : List SEvent) : Sess :=
  evs.foldl (setupStep mOk fOut pOk) initSess

theorem sess_pre_frames_inv (mOk : Bool) (fOut : Except Unit (List FrameA)) (pOk : Bool)
    (evs : List SEvent)
    (hph : (runSetup mOk fOut pOk evs).phase = Phase.awaitingManifest ∨
      (runSetup mOk fOut pOk evs).phase = Phase.awaitingFrames) :
    (runSetup mOk fOut pOk evs).audio = none ∧
    (runSetup mOk fOut pOk evs).rafPending = false ∧
    (runSetup mOk fOut pOk evs).readyFired = false := by
  suffices h : ∀ (l : List SEvent) (s : Sess),
      ((s.phase = Phase.awaitingManifest ∨ s.phase = Phase.awaitingFrames) →
        s.audio = none ∧ s.rafPending = false ∧ s.readyFired = false) →
      ((l.foldl (setupStep mOk fOut pOk) s).phase = Phase.awaitingManifest ∨
        (l.foldl (setupStep mOk fOut pOk) s).phase = Phase.awaitingFrames) →
      (l.foldl (setupStep mOk fOut pOk) s).audio = none ∧
      (l.foldl (setupStep mOk fOut pOk) s).rafPending = false ∧
      (l.foldl (setupStep mOk fOut pOk) s).readyFired = false by
    exact h evs initSess (fun _ => ⟨rfl, rfl, rfl⟩) hph
  intro l
  induction l with
  | nil => intro s hs hph2; exact hs hph2
  | cons e l ih =>
    intro s hs hph2
    refine ih (setupStep mOk fOut pOk s e) ?_ hph2
    intro hph3
    cases e with
    | unmount =>
      have hph4 : s.phase = Phase.awaitingManifest ∨ s.phase = Phase.awaitingFrames := hph3
      obtain ⟨ha, hr, hrd⟩ := hs hph4
      refine ⟨?_, rfl, ?_⟩
      · have hmap : (setupStep mOk fOut pOk s SEvent.unmount).audio =
            Option.map (fun a => { a with playing := false }) s.audio := rfl
        rw [hmap, ha]
        rfl
      · exact hrd
    | resume =>
      cases hphase : s.phase with
      | awaitingManifest =>
        obtain ⟨ha, hr, hrd⟩ := hs (Or.inl hphase)
        by_cases hmok : mOk = false
        · simp only [setupStep, hphase, hmok, if_true] at hph3 ⊢
          exact ⟨ha, hr, hrd⟩
        · by_cases hmt : s.mounted = false
          · simp only [setupStep, hphase, hmok, if_false, hmt, if_true] at hph3 ⊢
            exact ⟨ha, hr, hrd⟩
          · simp only [setupStep, hphase, hmok, if_false, hmt] at hph3 ⊢
            exact ⟨ha, hr, hrd⟩
      | awaitingFrames =>
        obtain ⟨ha, hr, hrd⟩ := hs (Or.inr hphase)
        cases fOut with
        | error e2 => simp only [setupStep, hphase] at hph3 ⊢; exact ⟨ha, hr, hrd⟩
        | ok l2 =>
          by_cases hmt : s.mounted = false
          · simp only [setupStep, hphase, hmt, if_true] at hph3 ⊢
            exact ⟨ha, hr, hrd⟩
          · simp only [setupStep, hphase, hmt, if_false] at hph3
            rcases hph3 with h | h <;> cases h
      | awaitingAudioReady =>
        simp only [setupStep, hphase] at hph3
        rcases hph3 with h | h <;> cases h
      | awaitingPlay =>
        by_cases hpok : pOk = true
        · simp only [setupStep, hphase, hpok, if_true] at hph3
          rcases hph3 with h | h <;> cases h
        · simp only [setupStep, hphase, hpok] at hph3
          rcases hph3 with h | h <;> cases h
      | completed =>
        simp only [setupStep, hphase] at hph3
        rcases hph3 with h | h <;> cases h
      | bailedOut =>
        simp only [setupStep, hphase] at hph3
        rcases hph3 with h | h <;> cases h
      | failed =>
        simp only [setupStep, hphase] at hph3
        rcases hph3 with h | h <;> cases h

theorem bailed_absorbing (mOk : Bool) (fOut : Except Unit (List FrameA)) (pOk : Bool)
    (evs : List SEvent) :
    ∀ s : Sess, s.phase = Phase.bailedOut → s.audio = none → s.rafPending = false →
      s.readyFired = false →
      (evs.foldl (setupStep mOk fOut pOk) s).phase = Phase.bailedOut ∧
      (evs.foldl (setupStep mOk fOut pOk) s).audio = none ∧
      (evs.foldl (setupStep mOk fOut pOk) s).rafPending = false ∧
      (evs.foldl (setupStep mOk fOut pOk) s).readyFired = false := by
  induction evs with
  | nil => intro s h1 h2 h3 h4; exact ⟨h1, h2, h3, h4⟩
  | cons e evs ih =>
    intro s h1 h2 h3 h4
    cases e with
    | unmount =>
      refine ih (cleanup s) h1 ?_ rfl h4
      have hmap : (cleanup s).audio =
          Option.map (fun a => { a with playing := false }) s.audio := rfl
      rw [hmap, h2]
      rfl
    | resume =>
      have hstep : setupStep mOk fOut pOk s .resume = s := by
        simp only [setupStep, h1]
      rw [List.foldl_cons, hstep]
      exact ih s h1 h2 h3 h4

theorem sess_error_inv (mOk pOk : Bool) (evs : List SEvent) :
    (runSetup mOk (Except.error ()) pOk evs).frames = [] ∧
    (runSetup mOk (Except.error ()) pOk evs).rafPending = false ∧
    (runSetup mOk (Except.error ()) pOk evs).readyFired = false ∧
    ((runSetup mOk (Except.error ()) pOk evs).phase = Phase.awaitingManifest ∨
      (runSetup mOk (Except.error ()) pOk evs).phase = Phase.awaitingFrames ∨
      (runSetup mOk (Except.error ()) pOk evs).phase = Phase.failed ∨
      (runSetup mOk (Except.error ()) pOk evs).phase = Phase.bailedOut) := by
  suffices h : ∀ (l : List SEvent) (s : Sess),
      (s.frames = [] ∧ s.rafPending = false ∧ s.readyFired = false ∧
        (s.phase = Phase.awaitingManifest ∨ s.phase = Phase.awaitingFrames ∨
          s.phase = Phase.failed ∨ s.phase = Phase.bailedOut)) →
      ((l.foldl (setupStep mOk (Except.error ()) pOk) s).frames = [] ∧
        (l.foldl (setupStep mOk (Except.error ()) pOk) s).rafPending = false ∧
        (l.foldl (setupStep mOk (Except.error ()) pOk) s).readyFired = false ∧
        ((l.foldl (setupStep mOk (Except.error ()) pOk) s).phase = Phase.awaitingManifest ∨
          (l.foldl (setupStep mOk (Except.error ()) pOk) s).phase = Phase.awaitingFrames ∨
          (l.foldl (setupStep mOk (Except.error ()) pOk) s).phase = Phase.failed ∨
          (l.foldl (setupStep mOk (Except.error ()) pOk) s).phase = Phase.bailedOut)) by
    exact h evs initSess ⟨rfl, rfl, rfl, Or.inl rfl⟩
  intro l
  induction l with
  | nil => intro s hs; exact hs
  | cons e l ih =>
    intro s hs
    obtain ⟨hf, hr, hrd, hph⟩ := hs
    refine ih (setupStep mOk (Except.error ()) pOk s e) ?_
    cases e with
    | unmount =>
      refine ⟨rfl, rfl, hrd, ?_⟩
      show s.phase = _ ∨ s.phase = _ ∨ s.phase = _ ∨ s.phase = _
      exact hph
    | resume =>
      rcases hph with hphase | hphase | hphase | hphase
      · by_cases hmok : mOk = false
        · refine ⟨?_, ?_, ?_, Or.inr (Or.inr (Or.inl ?_))⟩ <;>
            simp [setupStep, hphase, hmok, hf, hr, hrd]
        · by_cases hmt : s.mounted = false
          · refine ⟨?_, ?_, ?_, Or.inr (Or.inr (Or.inr ?_))⟩ <;>
              simp [setupStep, hphase, hmok, hmt, hf, hr, hrd]
          · refine ⟨?_, ?_, ?_, Or.inr (Or.inl ?_)⟩ <;>
              simp [setupStep, hphase, hmok, hmt, hf, hr, hrd]
      · refine ⟨?_, ?_, ?_, Or.inr (Or.inr (Or.inl ?_))⟩ <;>
          simp [setupStep, hphase, hf, hr, hrd]
      · refine ⟨?_, ?_, ?_, Or.inr (Or.inr (Or.inl ?_))⟩ <;>
          simp [setupStep, hphase, hf, hr, hrd]
      · refine ⟨?_, ?_, ?_, Or.inr (Or.inr (Or.inr ?_))⟩ <;>
          simp [setupStep, hphase, hf, hr, hrd]

theorem setupStep_frames_ok_unmounted {s : Sess} (mOk pOk : Bool) (l : List FrameA)
    (hph : s.phase = Phase.awaitingFrames) (hmt : s.mounted = false) :
    setupStep mOk (Except.ok l) pOk s SEvent.resume =
      { s with frames := l, phase := Phase.bailedOut } := by
  simp [setupStep, hph, hmt]

/-- C5, corrected: if the session is disposed while the frame fetches are
still in flight (cleanup runs while `setup()` awaits `loadFrames`), the
late-arriving result is NOT discarded before mutation: its completion writes
the decoded frames into the just-cleared frame store, because the liveness
flag is checked only after the assignment
`framesRef.current = await loadFrames(manifest)`.  The check then aborts the
rest of setup, so the scheduling loop is never started, no audio element is
ever created, and readiness is never signalled, in that step and in all later
events of the session. -/
theorem avatar_C5 (mOk pOk : Bool) (l : List FrameA) (evs₁ evs₂ : List SEvent)
    (hph : (runSetup mOk (Except.ok l) pOk evs₁).phase = Phase.awaitingFrames) :
    (runSetup mOk (Except.ok l) pOk (evs₁ ++ [SEvent.unmount, SEvent.resume])).frames = l ∧
    (runSetup mOk (Except.ok l) pOk (evs₁ ++ [SEvent.unmount, SEvent.resume])).phase =
      Phase.bailedOut ∧
    (runSetup mOk (Except.ok l) pOk (evs₁ ++ [SEvent.unmount, SEvent.resume])).rafPending =
      false ∧
    (runSetup mOk (Except.ok l) pOk (evs₁ ++ [SEvent.unmount, SEvent.resume])).audio = none ∧
    (runSetup mOk (Except.ok l) pOk (evs₁ ++ [SEvent.unmount, SEvent.resume])).readyFired =
      false ∧
    (runSetup mOk (Except.ok l) pOk
      (evs₁ ++ [SEvent.unmount, SEvent.resume] ++ evs₂)).rafPending = false ∧
    (runSetup mOk (Except.ok l) pOk
      (evs₁ ++ [SEvent.unmount, SEvent.resume] ++ evs₂)).audio = none ∧
    (runSetup mOk (Except.ok l) pOk
      (evs₁ ++ [SEvent.unmount, SEvent.resume] ++ evs₂)).readyFired = false := by
  obtain ⟨haud, hraf, hready⟩ :=
    sess_pre_frames_inv mOk (Except.ok l) pOk evs₁ (Or.inr hph)
  have hsplit : runSetup mOk (Except.ok l) pOk (evs₁ ++ [SEvent.unmount, SEvent.resume]) =
      setupStep mOk (Except.ok l) pOk
        (setupStep mOk (Except.ok l) pOk (runSetup mOk (Except.ok l) pOk evs₁)
          SEvent.unmount) SEvent.resume := by
    unfold runSetup
    rw [List.foldl_append]
    rfl
  have hcl_ph : (cleanup (runSetup mOk (Except.ok l) pOk evs₁)).phase =
      Phase.awaitingFrames := by
    rw [show (cleanup (runSetup mOk (Except.ok l) pOk evs₁)).phase =
      (runSetup mOk (Except.ok l) pOk evs₁).phase from rfl, hph]
  have hcl_mt : (cleanup (runSetup mOk (Except.ok l) pOk evs₁)).mounted = false := rfl
  have hcl_aud : (cleanup (runSetup mOk (Except.ok l) pOk evs₁)).audio = none := by
    have hmap : (cleanup (runSetup mOk (Except.ok l) pOk evs₁)).audio =
        Option.map (fun a => { a with playing := false })
          (runSetup mOk (Except.ok l) pOk evs₁).audio := rfl
    rw [hmap, haud]
    rfl
  have hcl_rdy : (cleanup (runSetup mOk (Except.ok l) pOk evs₁)).readyFired = false := hready
  have hs2 : runSetup mOk (Except.ok l) pOk (evs₁ ++ [SEvent.unmount, SEvent.resume]) =
      { cleanup (runSetup mOk (Except.ok l) pOk evs₁) with
        frames := l,
        phase := Phase.bailedOut } := by
    rw [hsplit, show setupStep mOk (Except.ok l) pOk (runSetup mOk (Except.ok l) pOk evs₁)
      SEvent.unmount = cleanup (runSetup mOk (Except.ok l) pOk evs₁) from rfl,
      setupStep_frames_ok_unmounted mOk pOk l hcl_ph hcl_mt]
  have habs := bailed_absorbing mOk (Except.ok l) pOk evs₂
    { cleanup (runSetup mOk (Except.ok l) pOk evs₁) with
      frames := l,
      phase := Phase.bailedOut } rfl hcl_aud rfl hcl_rdy
  have hsplit2 : runSetup mOk (Except.ok l) pOk
      (evs₁ ++ [SEvent.unmount, SEvent.resume] ++ evs₂) =
      evs₂.foldl (setupStep mOk (Except.ok l) pOk)
        (runSetup mOk (Except.ok l) pOk (evs₁ ++ [SEvent.unmount, SEvent.resume])) := by
    unfold runSetup
    rw [List.foldl_append]
  refine ⟨by rw [hs2], by rw [hs2], by rw [hs2]; exact rfl, by rw [hs2]; exact hcl_aud,
    by rw [hs2]; exact hcl_rdy, ?_, ?_, ?_⟩
  · rw [hsplit2, hs2]
    exact habs.2.2.1
  · rw [hsplit2, hs2]
    exact habs.2.1
  · rw [hsplit2, hs2]
    exact habs.2.2.2

theorem avatar_C5_cex :
    (runSetup true (Except.ok [{ id := 0, closable := true }]) true
      [SEvent.resume, SEvent.unmount]).mounted = false ∧
    (runSetup true (Except.ok [{ id := 0, closable := true }]) true
      [SEvent.resume, SEvent.unmount]).frames = [] ∧
    (runSetup true (Except.ok [{ id := 0, closable := true }]) true
      [SEvent.resume, SEvent.unmount, SEvent.resume]).frames =
      [{ id := 0, closable := true }] := by
  refine ⟨rfl, rfl, rfl⟩

theorem avatar_C5_witness :
    (runSetup true (Except.ok [{ id := 0, closable := true }]) true
      [SEvent.resume]).phase = Phase.awaitingFrames ∧
    ((runSetup true (Except.ok [{ id := 0, closable := true }]) true
      ([SEvent.resume] ++ [SEvent.unmount, SEvent.resume])).frames =
        [{ id := 0, closable := true }] ∧
      (runSetup true (Except.ok [{ id := 0, closable := true }]) true
        ([SEvent.resume] ++ [SEvent.unmount, SEvent.resume] ++ [SEvent.unmount])).rafPending =
        false ∧
      (runSetup true (Except.ok [{ id := 0, closable := true }]) true
        ([SEvent.resume] ++ [SEvent.unmount, SEvent.resume] ++ [SEvent.unmount])).audio =
        none) := by
  have h := avatar_C5 true true [{ id := 0, closable := true }] [SEvent.resume]
    [SEvent.unmount] rfl
  exact ⟨rfl, h.1, h.2.2.2.2.2.1, h.2.2.2.2.2.2.1⟩

/-- C6: when at least one frame fetch or decode of an individual-mode load
fails, every terminated schedule of the worker pool rejects the whole load
(fail-fast), and a session whose `loadFrames` stage rejects never writes any
frame into the store, never starts the scheduling loop, and never signals
readiness — no partial frame set is ever handed to the playback clock. -/
theorem avatar_C6 (resolve : String → String) (fetchDecode : String → Option α)
    (frames : List String) (i : Nat) (hi : i < frames.length)
    (hfail : frameOut resolve fetchDecode frames i = none) (sched : List Nat)
    (hdone : (runPool frames.length (frameOut resolve fetchDecode frames) sched).isDone = true)
    (mOk pOk : Bool) (evs : List SEvent) :
    (runPool frames.length (frameOut resolve fetchDecode frames) sched).loadResult =
      Except.error "frame fetch failed" ∧
    (runSetup mOk (Except.error ()) pOk evs).frames = [] ∧
    (runSetup mOk (Except.error ()) pOk evs).rafPending = false ∧
    (runSetup mOk (Except.error ()) pOk evs).readyFired = false := by
  obtain ⟨h1, h2, h3, -⟩ := sess_error_inv mOk pOk evs
  exact ⟨pool_terminal_failed frames.length _ i hi hfail sched hdone, h1, h2, h3⟩

theorem avatar_C6_witness :
    ((1 : Nat) < (["a.jpg", "b.jpg"] : List String).length ∧
      frameOut (fun u => String.append "cdn/" u)
        (fun u => if u = "cdn/a.jpg" then some "img" else none) ["a.jpg", "b.jpg"] 1 = none ∧
      (runPool (["a.jpg", "b.jpg"] : List String).length
        (frameOut (fun u => String.append "cdn/" u)
          (fun u => if u = "cdn/a.jpg" then some "img" else none) ["a.jpg", "b.jpg"])
        [0, 1, 1, 0]).isDone = true) ∧
    ((runPool (["a.jpg", "b.jpg"] : List String).length
        (frameOut (fun u => String.append "cdn/" u)
          (fun u => if u = "cdn/a.jpg" then some "img" else none) ["a.jpg", "b.jpg"])
        [0, 1, 1, 0]).loadResult = Except.error "frame fetch failed" ∧
      (runSetup true (Except.error ()) true
        [SEvent.resume, SEvent.resume, SEvent.unmount]).frames = [] ∧
      (runSetup true (Except.error ()) true
        [SEvent.resume, SEvent.resume, SEvent.unmount]).rafPending = false ∧
      (runSetup true (Except.error ()) true
        [SEvent.resume, SEvent.resume, SEvent.unmount]).readyFired = false) := by
  refine ⟨⟨by decide, by decide, by decide⟩, ?_⟩
  exact avatar_C6 (fun u => String.append "cdn/" u)
    (fun u => if u = "cdn/a.jpg" then some "img" else none) ["a.jpg", "b.jpg"] 1 (by decide)
    (by decide) [0, 1, 1, 0] (by decide) true true
    [SEvent.resume, SEvent.resume, SEvent.unmount]

/-- C7: the cleanup closure cancels any pending scheduled tick, pauses the
audio element when one exists, closes every frame asset that exposes a
release capability exactly once, and clears the frame store; running it a
second time, or on a session whose setup never progressed, performs no
further release and does not fail. -/
theorem avatar_C7 (s : Sess) (hnd : s.frames.Nodup) (hlog : s.closeLog = []) :
    (cleanup s).rafPending = false ∧
    (cleanup s).frames = [] ∧
    (cleanup s).mounted = false ∧
    (∀ a, s.audio = some a → (cleanup s).audio = some { playing := false }) ∧
    (s.audio = none → (cleanup s).audio = none) ∧
    (cleanup s).closeLog = s.frames.filter (·.closable) ∧
    (cleanup (cleanup s)).closeLog = (cleanup s).closeLog ∧
    (∀ f ∈ s.frames, f.closable = true → (cleanup (cleanup s)).closeLog.count f = 1) ∧
    (∀ f : FrameA, f.closable = false → (cleanup (cleanup s)).closeLog.count f = 0) ∧
    (cleanup (cleanup s)).frames = [] ∧
    cleanup initSess = { initSess with mounted := false } := by
  have hclog : (cleanup s).closeLog = s.frames.filter (·.closable) := by
    have : (cleanup s).closeLog = s.closeLog ++ s.frames.filter (·.closable) := rfl
    rw [this, hlog]
    rfl
  have hclog2 : (cleanup (cleanup s)).closeLog = (cleanup s).closeLog := by
    have heq : (cleanup (cleanup s)).closeLog =
        (cleanup s).closeLog ++ (cleanup s).frames.filter (·.closable) := rfl
    have hfr : (cleanup s).frames = ([] : List FrameA) := rfl
    rw [heq, hfr]
    simp
  refine ⟨rfl, rfl, rfl, ?_, ?_, hclog, hclog2, ?_, ?_, rfl, ?_⟩
  · intro a ha
    have hmap : (cleanup s).audio =
        Option.map (fun a => { a with playing := false }) s.audio := rfl
    rw [hmap, ha]
    rfl
  · intro ha
    have hmap : (cleanup s).audio =
        Option.map (fun a => { a with playing := false }) s.audio := rfl
    rw [hmap, ha]
    rfl
  · intro f hf hcl
    rw [hclog2, hclog]
    exact List.count_eq_one_of_mem (hnd.filter _) (List.mem_filter.mpr ⟨hf, hcl⟩)
  · intro f hcl
    rw [hclog2, hclog]
    rw [List.count_eq_zero]
    intro hmem
    have := (List.mem_filter.mp hmem).2
    rw [hcl] at this
    cases this
  · rfl

theorem avatar_C7_witness :
    (([{ id := 0, closable := true }, { id := 1, closable := false }] :
        List FrameA).Nodup ∧
      ([] : List FrameA) = []) ∧
    (let s : Sess :=
      { phase := Phase.completed, mounted := true, manifestSet := true,
        frames := [{ id := 0, closable := true }, { id := 1, closable := false }],
        audio := some { playing := true }, rafPending := true, readyFired := true,
        errorFired := false, closeLog := [] }
     (cleanup s).rafPending = false ∧ (cleanup s).frames = [] ∧
      (cleanup s).closeLog = [{ id := 0, closable := true }] ∧
      (cleanup (cleanup s)).closeLog = (cleanup s).closeLog ∧
      (cleanup (cleanup s)).closeLog.count { id := 0, closable := true } = 1 ∧
      (cleanup s).audio = some { playing := false } ∧
      cleanup initSess = { initSess with mounted := false }) := by
  refine ⟨⟨by decide, rfl⟩, ?_⟩
  obtain ⟨h1, h2, -, h4, -, h6, h7, h8, -, -, h11⟩ := avatar_C7
    { phase := Phase.completed, mounted := true, manifestSet := true,
      frames := [{ id := 0, closable := true }, { id := 1, closable := false }],
      audio := some { playing := true }, rafPending := true, readyFired := true,
      errorFired := false, closeLog := [] } (by decide) rfl
  refine ⟨h1, h2, ?_, h7, ?_, h4 { playing := true } rfl, h11⟩
  · rw [h6]
    rfl
  · exact h8 { id := 0, closable := true } (by decide) rfl

end AvatarPlayer
